import Mathlib

/-!
Verification development for the mmlfm-go MML compiler and sequencer core.

The Go sources are shallowly embedded:
  * Go strings are modelled as `List Char` (the sources are exercised on
    ASCII input, where Go's byte indexing and rune indexing coincide; the
    two-byte guillemet characters are modelled as single characters, which
    only shifts positions on non-ASCII input).
  * Go `int` is modelled as `Int` (overflow of 64-bit integers is not
    modelled); Go integer division / remainder truncate toward zero, which
    is `Int.tdiv` / `Int.tmod`, wrapped below as `gdiv` / `gmod`.
  * Go `float64` is modelled as an exact rational carried as a
    numerator/denominator pair (`fq` below); the transcendental helpers
    `math.Pow(10, x)` and `math.Sqrt` have no exact rational counterpart
    and are passed in as an oracle parameter (`Transc`); no theorem in this
    file depends on their values, every concrete run stays on code paths
    that never call them.
  * Go maps are modelled as association lists in insertion order.
  * The sequencer's `onEvent` / `onTrigger` callbacks and the calls it makes
    into the `VoiceEngine` interface are modelled as traces accumulated in
    the state.
Loops without a structural measure carry an explicit `Nat` fuel argument;
callers pass a bound that dominates the Go loop's iteration count.
-/

set_option maxRecDepth 12000
set_option maxHeartbeats 4000000

/-- Go string modelled as a list of characters. -/
abbrev Str : Type := List Char

/-- Exact rational (model of Go float64): numerator / denominator pair.
The denominator is kept positive by the smart constructors below. -/
structure fq where
  num : Int
  den : Int
  deriving DecidableEq, Repr

def fqOfInt (i : Int) : fq := ⟨i, 1⟩

def fqAdd (a b : fq) : fq :=
  if a.den = b.den then ⟨a.num + b.num, a.den⟩
  else ⟨a.num * b.den + b.num * a.den, a.den * b.den⟩

def fqSub (a b : fq) : fq := fqAdd a ⟨-b.num, b.den⟩

def fqMul (a b : fq) : fq := ⟨a.num * b.num, a.den * b.den⟩

def fqDiv (a b : fq) : fq :=
  if a.den * b.num < 0 then ⟨-(a.num * b.den), -(a.den * b.num)⟩
  else ⟨a.num * b.den, a.den * b.num⟩

/-- The rational value represented by an `fq` pair. -/
def fqVal (a : fq) : ℚ := (a.num : ℚ) / (a.den : ℚ)

/-- Go `int(x)` conversion from float64: truncation toward zero. -/
def fqTrunc (a : fq) : Int := Int.tdiv a.num a.den

/-- Comparisons assume the positive-denominator invariant kept by the
constructors above. -/
def fqLe (a b : fq) : Bool := decide (a.num * b.den ≤ b.num * a.den)

def fqLt (a b : fq) : Bool := decide (a.num * b.den < b.num * a.den)

/-- Go `math.Round`: round half away from zero. -/
def fqRound (a : fq) : Int :=
  if 0 ≤ a.num then Int.ediv (2 * a.num + a.den) (2 * a.den)
  else -(Int.ediv (-(2 * a.num) + a.den) (2 * a.den))

/-- Go integer division (truncates toward zero). -/
def gdiv (a b : Int) : Int := Int.tdiv a b

/-- Go integer remainder (sign of the dividend). -/
def gmod (a b : Int) : Int := Int.tmod a b

/-- Go bitwise AND, used on non-negative mask values only. -/
def gand (a b : Int) : Int := Int.ofNat (a.toNat &&& b.toNat)

/-- Oracle for the two transcendental float helpers used by velocity
scaling (`math.Pow(10, x)` and `math.Sqrt(x)`); see the file header. -/
structure Transc where
  pow10 : fq → fq
  sqrtf : fq → fq

/-- A trivial oracle used to instantiate theorems whose concrete runs never
reach the dB/sqrt scaling paths. -/
def truncOracle : Transc := ⟨fun _ => fqOfInt 1, fun _ => fqOfInt 1⟩

/-- Result of a Go function returning `(T, error)`. -/
inductive res (α : Type) where
  | ok (val : α)
  | err (msg : Str)
  deriving DecidableEq

def res.isOk {α : Type} : res α → Bool
  | .ok _ => true
  | .err _ => false

def res.getD {α : Type} (r : res α) (d : α) : α :=
  match r with
  | .ok v => v
  | .err _ => d

namespace mml

/-- internal/mml/types.go: event discriminator. -/
inductive EventType where
  | note | rest | tempo | volume | fineVolume | program | pan | expression
  | module | detune | transpose | quantize | keyOnDelay | slur | tableEnv
  | control
  deriving DecidableEq, Repr

/-- internal/mml/types.go: slur modes. -/
inductive SlurMode where
  | none | normal | weak
  deriving DecidableEq, Repr

/-- internal/mml/types.go: Event struct (zero values mirror Go). -/
structure Event where
  type : EventType := .note
  tick : Int := 0
  duration : Int := 0
  note : Int := 0
  value : Int := 0
  program : Int := 0
  pan : Int := 0
  module : Int := 0
  channel : Int := 0
  detune : Int := 0
  expr : Int := 0
  gateTick : Int := 0
  delay : Int := 0
  slur : SlurMode := .none
  command : Str := []
  text : Str := []
  values : List Int := []
  deriving DecidableEq, Repr

/-- internal/mml/types.go: Track struct. -/
structure Track where
  events : List Event := []
  endTick : Int := 0
  loopTick : Int := 0
  loopIndex : Int := 0
  deriving DecidableEq, Repr

/-- internal/mml/types.go: Score struct (Definitions as an assoc list in
insertion order). -/
structure Score where
  resolution : Int := 0
  initialBPM : fq := fqOfInt 0
  tracks : List Track := []
  definitions : List (Str × Str) := []
  deriving DecidableEq, Repr

/-- internal/mml/types.go: ParserConfig struct. -/
structure ParserConfig where
  resolution : Int
  defaultBPM : fq
  defaultLValue : Int
  defaultOctave : Int
  minOctave : Int
  maxOctave : Int
  defaultVolume : Int
  defaultFineVol : Int
  octavePolarize : Int
  deriving DecidableEq, Repr

/-- internal/mml/types.go: DefaultParserConfig. -/
def DefaultParserConfig : ParserConfig :=
  { resolution := 1920
    defaultBPM := fqOfInt 120
    defaultLValue := 4
    defaultOctave := 5
    minOctave := 0
    maxOctave := 9
    defaultVolume := 16
    defaultFineVol := 127
    octavePolarize := -1 }

/-- parser.go: clampInt (also defined identically in the sequencer). -/
def clampInt (v lo hi : Int) : Int :=
  if v < lo then lo else if v > hi then hi else v

/-- parser.go: lower (ASCII byte lowering). -/
def lower (b : Char) : Char :=
  if 'A' ≤ b ∧ b ≤ 'Z' then Char.ofNat (b.toNat + 32) else b

/-- parser.go: isSpace. -/
def isSpace (b : Char) : Bool := b = ' ' ∨ b = '\n' ∨ b = '\r' ∨ b = '\t'

/-- parser.go: the noteOffsets map as a partial lookup. -/
def noteOffsetsGet (b : Char) : Option Int :=
  if b = 'c' then some 0 else if b = 'd' then some 2
  else if b = 'e' then some 4 else if b = 'f' then some 5
  else if b = 'g' then some 7 else if b = 'a' then some 9
  else if b = 'b' then some 11 else none

/-- parser.go: isNote (membership in noteOffsets). -/
def isNote (b : Char) : Bool := (noteOffsetsGet b).isSome

/-- Value of noteOffsets with the Go zero value for a missing key. -/
def noteOffsetsVal (b : Char) : Int := (noteOffsetsGet b).getD 0

/-- parser.go: isAlpha. -/
def isAlpha (b : Char) : Bool := ('a' ≤ b ∧ b ≤ 'z') ∨ ('A' ≤ b ∧ b ≤ 'Z')

/-- parser.go: isMacroName. -/
def isMacroName (b : Char) : Bool := 'A' ≤ b ∧ b ≤ 'Z'

def isDigitCh (b : Char) : Bool := '0' ≤ b ∧ b ≤ '9'

/-- Character at position `i`, with the null character for out-of-range
access (Go would panic; every embedded access is guarded as in the
source, so the default is never observable). -/
def at' (s : Str) (i : Nat) : Char := s.getD i (Char.ofNat 0)

/-- parser.go: startsWithWord (case-insensitive prefix test at a position). -/
def startsWithWord (src : Str) (at_ : Nat) (word : Str) : Bool :=
  if at_ + word.length > src.length then false
  else (List.range word.length).all
    (fun k => lower (at' src (at_ + k)) = lower (at' word k))

/-- strings.HasPrefix on the character model. -/
def hasPrefixS (s pre : Str) : Bool := pre.isPrefixOf s

/-- strings.Index on the character model: first position of `sub`, or -1. -/
def indexS (s sub : Str) : Int :=
  match List.findIdx? (fun i => hasPrefixS (s.drop i) sub) (List.range (s.length + 1)) with
  | some i => Int.ofNat i
  | none => -1

/-- strings.Contains on the character model. -/
def containsS (s sub : Str) : Bool := indexS s sub ≥ 0

/-- strings.ToLower on the character model (ASCII). -/
def toLowerS (s : Str) : Str := s.map lower

/-- ASCII byte uppering. -/
def upper (b : Char) : Char :=
  if 'a' ≤ b ∧ b ≤ 'z' then Char.ofNat (b.toNat - 32) else b

/-- strings.ToUpper on the character model (ASCII). -/
def toUpperS (s : Str) : Str := s.map upper

/-- strings.TrimSpace on the character model (the whitespace set of the
parser's `isSpace`). -/
def trimSpaceS (s : Str) : Str :=
  ((s.dropWhile (fun c => isSpace c)).reverse.dropWhile (fun c => isSpace c)).reverse

/-- Numeric value of a run of digit characters (semantics of strconv.Atoi
on an all-digit string; 64-bit overflow is not modelled). -/
def digitsVal (s : Str) : Int :=
  s.foldl (fun acc c => acc * 10 + Int.ofNat (c.toNat - '0'.toNat)) 0

/-- strconv.Atoi on the character model: optional sign then digits,
consuming the entire string. -/
def atoiS (s : Str) : Option Int :=
  match s with
  | [] => none
  | c :: rest =>
    if c = '+' then
      if rest ≠ [] ∧ rest.all (fun d => isDigitCh d) then some (digitsVal rest) else none
    else if c = '-' then
      if rest ≠ [] ∧ rest.all (fun d => isDigitCh d) then some (-(digitsVal rest)) else none
    else if (c :: rest).all (fun d => isDigitCh d) then some (digitsVal (c :: rest))
    else none

/-- Association-list lookup modelling a Go map read (`m[k]` second form). -/
def defsGet (defs : List (Str × Str)) (k : Str) : Option Str :=
  match defs with
  | [] => none
  | (k', v) :: rest => if k' = k then some v else defsGet rest k

/-- Go map read that yields the zero value on a miss. -/
def defsGetD (defs : List (Str × Str)) (k : Str) : Str := (defsGet defs k).getD []

/-- Association-list update modelling a Go map write. -/
def defsSet (defs : List (Str × Str)) (k v : Str) : List (Str × Str) :=
  match defs with
  | [] => [(k, v)]
  | (k', v') :: rest => if k' = k then (k, v) :: rest else (k', v') :: defsSet rest k v

/-- parser.go: parseNumberOptional. Returns -1 when no digits are present
(the Atoi error path is unreachable on unbounded integers). -/
def parseNumberOptional (s : Str) (at_ : Nat) : Int × Nat :=
  let digits := (s.drop at_).takeWhile (fun c => isDigitCh c)
  if digits = [] then (-1, at_) else (digitsVal digits, at_ + digits.length)

/-- parser.go: parseNumberDefault. -/
def parseNumberDefault (s : Str) (at_ : Nat) (def_ : Int) : Int × Nat :=
  let (v, i) := parseNumberOptional s at_
  if v = -1 then (def_, i) else (v, i)

/-- parser.go: parseSignedNumberDefault. -/
def parseSignedNumberDefault (s : Str) (at_ : Nat) (def_ : Int) : Int × Nat :=
  if at_ ≥ s.length then (def_, at_)
  else
    let sign : Int := if at' s at_ = '-' then -1 else 1
    let i := if at' s at_ = '+' ∨ at' s at_ = '-' then at_ + 1 else at_
    let (v, next) := parseNumberOptional s i
    if v = -1 then (def_, next) else (sign * v, next)

/-- parser.go: parseGateDuration. -/
def parseGateDuration (dur gatePercent : Int) : Int :=
  if gatePercent ≤ 0 then 0
  else
    let gated := gdiv (dur * gatePercent) 100
    if gated ≤ 0 ∧ dur > 0 then 1 else gated

/-- parser.go: convertQuarter192ToTicks. -/
def convertQuarter192ToTicks (v resolution : Int) : Int :=
  if v < 0 then v
  else
    let r := if resolution ≤ 0 then 1920 else resolution
    gdiv (v * r) 192

/-- parser.go: normalizePanValue. -/
def normalizePanValue (v : Int) : Int :=
  if 0 ≤ v ∧ v ≤ 8 then (v - 4) * 16
  else if v > 64 then 64
  else if v < -64 then -64
  else v

/-- strings.Split on a single-character separator. -/
def splitS (s : Str) (sep : Char) : List Str :=
  match s with
  | [] => [[]]
  | c :: rest =>
    match splitS rest sep with
    | [] => [[]]
    | h :: t => if c = sep then [] :: h :: t else (c :: h) :: t

/-- Worker for `replaceAllS`, fuelled by the remaining length. -/
def replaceAllGo (fuel : Nat) (s sub rep : Str) : Str :=
  match fuel with
  | 0 => s
  | fuel + 1 =>
    match s with
    | [] => []
    | c :: rest =>
      if sub ≠ [] ∧ hasPrefixS (c :: rest) sub then
        rep ++ replaceAllGo fuel ((c :: rest).drop sub.length) sub rep
      else c :: replaceAllGo fuel rest sub rep

/-- strings.ReplaceAll for a non-empty pattern. -/
def replaceAllS (s sub rep : Str) : Str := replaceAllGo (s.length + 1) s sub rep

/-- parser.go: dbScale (shared verbatim with the sequencer copy). The
in-range branch applies the oracle for `math.Pow(10, -range*(1-norm)/20)`. -/
def dbScale (tr : Transc) (norm : fq) (dbRange : fq) : fq :=
  if fqLe norm (fqOfInt 0) then fqOfInt 0
  else if fqLe (fqOfInt 1) norm then fqOfInt 1
  else tr.pow10 (fqDiv (fqMul (fqOfInt (-1)) (fqMul dbRange (fqSub (fqOfInt 1) norm))) (fqOfInt 20))

/-- parser.go: scaledVelocity. -/
def scaledVelocity (tr : Transc) (volume expression fineVol vScaleMode vScaleMax xScaleMode : Int) (vmode : Str) : Int :=
  let volMax := if vScaleMax ≤ 0 then 16 else vScaleMax
  let vol := clampInt volume 0 127
  let expr := clampInt expression 0 128
  let fine := clampInt fineVol 0 128
  let volNorm0 := fqDiv (fqOfInt vol) (fqOfInt volMax)
  let volNorm1 := if fqLt volNorm0 (fqOfInt 0) then fqOfInt 0 else volNorm0
  let volNorm2 := if fqLt (fqOfInt 1) volNorm1 then fqOfInt 1 else volNorm1
  let exprNorm0 := fqDiv (fqOfInt expr) (fqOfInt 128)
  let volNorm :=
    if vScaleMode = 1 ∨ (containsS vmode ['n','8','8'] ∧ vScaleMode = 0) then dbScale tr volNorm2 (fqOfInt 96)
    else if vScaleMode = 2 ∨ (containsS vmode ['m','d','x'] ∧ vScaleMode = 0) then dbScale tr volNorm2 (fqOfInt 64)
    else if vScaleMode = 3 ∨ (containsS vmode ['m','c','k'] ∧ vScaleMode = 0) then dbScale tr volNorm2 (fqOfInt 48)
    else if vScaleMode = 4 ∨ (containsS vmode ['t','s','s'] ∧ vScaleMode = 0) then dbScale tr volNorm2 (fqOfInt 32)
    else volNorm2
  let exprNorm :=
    if xScaleMode = 1 then tr.sqrtf exprNorm0
    else if xScaleMode = 2 then fqMul exprNorm0 exprNorm0
    else if xScaleMode = 3 then dbScale tr exprNorm0 (fqOfInt 48)
    else if xScaleMode = 4 then dbScale tr exprNorm0 (fqOfInt 32)
    else exprNorm0
  let vel := fqMul (fqMul volNorm exprNorm) (fqMul (fqDiv (fqOfInt fine) (fqOfInt 128)) (fqOfInt 127))
  clampInt (fqRound vel) 0 127

/-- parser.go: the `map[byte]int` key-signature table, one field per note
letter (all Go initialisations start at 0). -/
structure KeySig where
  c : Int := 0
  d : Int := 0
  e : Int := 0
  f : Int := 0
  g : Int := 0
  a : Int := 0
  b : Int := 0
  deriving DecidableEq, Repr

def keySigGet (ks : KeySig) (ch : Char) : Int :=
  if ch = 'c' then ks.c else if ch = 'd' then ks.d else if ch = 'e' then ks.e
  else if ch = 'f' then ks.f else if ch = 'g' then ks.g else if ch = 'a' then ks.a
  else if ch = 'b' then ks.b else 0

def keySigHas (ch : Char) : Bool :=
  ch = 'c' ∨ ch = 'd' ∨ ch = 'e' ∨ ch = 'f' ∨ ch = 'g' ∨ ch = 'a' ∨ ch = 'b'

def keySigSet (ks : KeySig) (ch : Char) (v : Int) : KeySig :=
  if ch = 'c' then { ks with c := v } else if ch = 'd' then { ks with d := v }
  else if ch = 'e' then { ks with e := v } else if ch = 'f' then { ks with f := v }
  else if ch = 'g' then { ks with g := v } else if ch = 'a' then { ks with a := v }
  else if ch = 'b' then { ks with b := v } else ks

/-- One comma-token step of parseKeySignature's explicit-accidental branch. -/
def keySigApplyTok (ks : KeySig) (tok : Str) : KeySig :=
  let tok := trimSpaceS tok
  if tok.length < 2 then ks
  else
    let n := at' tok 0
    if ¬ keySigHas n then ks
    else
      let last := at' tok (tok.length - 1)
      if last = '+' ∨ last = '#' then keySigSet ks n 1
      else if last = '-' ∨ last = 'b' then keySigSet ks n (-1)
      else keySigSet ks n 0

/-- parser.go: the named-key switch of parseKeySignature. -/
def keySigNamed (key : Str) : KeySig :=
  if key = ['c'] ∨ key = ['a','m'] then {}
  else if key = ['g'] ∨ key = ['e','m'] then { f := 1 }
  else if key = ['d'] ∨ key = ['b','m'] then { f := 1, c := 1 }
  else if key = ['a'] ∨ key = ['f','#','m'] then { f := 1, c := 1, g := 1 }
  else if key = ['e'] ∨ key = ['c','#','m'] then { f := 1, c := 1, g := 1, d := 1 }
  else if key = ['b'] ∨ key = ['g','#','m'] then { f := 1, c := 1, g := 1, d := 1, a := 1 }
  else if key = ['f','#'] ∨ key = ['d','#','m'] then { f := 1, c := 1, g := 1, d := 1, a := 1, e := 1 }
  else if key = ['c','#'] ∨ key = ['a','#','m'] then { f := 1, c := 1, g := 1, d := 1, a := 1, e := 1, b := 1 }
  else if key = ['f'] ∨ key = ['d','m'] then { b := -1 }
  else if key = ['b','b'] ∨ key = ['g','m'] then { b := -1, e := -1 }
  else if key = ['e','b'] ∨ key = ['c','m'] then { b := -1, e := -1, a := -1 }
  else if key = ['a','b'] ∨ key = ['f','m'] then { b := -1, e := -1, a := -1, d := -1 }
  else if key = ['d','b'] ∨ key = ['b','b','m'] then { b := -1, e := -1, a := -1, d := -1, g := -1 }
  else if key = ['g','b'] ∨ key = ['e','b','m'] then { b := -1, e := -1, a := -1, d := -1, g := -1, c := -1 }
  else if key = ['c','b'] ∨ key = ['a','b','m'] then { b := -1, e := -1, a := -1, d := -1, g := -1, c := -1, f := -1 }
  else {}

/-- parser.go: parseKeySignature. -/
def parseKeySignature (defs : List (Str × Str)) : KeySig :=
  let raw := trimSpaceS (defsGetD defs ['S','I','G','N'])
  if raw = [] then {}
  else
    let lowerRaw := toLowerS raw
    if containsS lowerRaw [','] then
      (splitS lowerRaw ',').foldl (fun ks tok => keySigApplyTok ks tok) {}
    else
      keySigNamed (replaceAllS (replaceAllS lowerRaw ['+'] ['#']) [' '] [])

/-- parser.go: isVolumeReversed. -/
def isVolumeReversed (defs : List (Str × Str)) : Bool :=
  match defsGet defs ['R','E','V'] with
  | none => false
  | some rev =>
    let rev := toLowerS (trimSpaceS rev)
    rev = [] ∨ containsS rev ['v','o','l','u','m','e']

/-- parser.go: parseState struct. -/
structure parseState where
  resolution : Int := 0
  tick : Int := 0
  octave : Int := 0
  defaultLen : Int := 0
  bpm : fq := fqOfInt 0
  volume : Int := 0
  fineVol : Int := 0
  expression : Int := 0
  quantMax : Int := 0
  quantValue : Int := 0
  gatePercent : Int := 0
  keyOffTick : Int := 0
  keyOnDelay : Int := 0
  slurMode : SlurMode := .none
  transpose : Int := 0
  detune : Int := 0
  pan : Int := 0
  program : Int := 0
  module : Int := 0
  channel : Int := 0
  revVolume : Bool := false
  keySig : KeySig := {}
  vmode : Str := []
  vScaleMode : Int := 0
  vScaleMax : Int := 0
  xScaleMode : Int := 0
  deriving DecidableEq

/-- parser.go: parserOptions struct. -/
structure parserOptions where
  quantMax : Int := 0
  tempoMode : Str := []
  tempoUnit : Int := 0
  tempoFPS : Int := 0
  deriving DecidableEq, Repr

/-- parser.go: newState. -/
def newState (cfg : ParserConfig) (opts : parserOptions) (defs : List (Str × Str)) : parseState :=
  let quantMax := if opts.quantMax ≤ 0 then 8 else opts.quantMax
  let quantValue0 := gdiv (quantMax * 3) 4
  let quantValue := if quantValue0 ≤ 0 then quantMax else quantValue0
  { resolution := cfg.resolution
    octave := cfg.defaultOctave
    defaultLen := gdiv cfg.resolution cfg.defaultLValue
    bpm := cfg.defaultBPM
    volume := cfg.defaultVolume
    fineVol := cfg.defaultFineVol
    expression := 128
    quantMax := quantMax
    quantValue := quantValue
    gatePercent := gdiv (quantValue * 100) quantMax
    keyOffTick := -1
    revVolume := isVolumeReversed defs
    keySig := parseKeySignature defs
    vmode := toLowerS (trimSpaceS (defsGetD defs ['V','M','O','D','E'])) }

/-- parser.go: parseLengthToken. -/
def parseLengthToken (s : Str) (at_ : Nat) (st : parseState) : Int × Nat :=
  let (val, i) := parseNumberOptional s at_
  let base := if val > 0 then gdiv st.resolution val else st.defaultLen
  let dots := ((s.drop i).takeWhile (fun c => c = '.')).length
  let durTerm := (List.range dots).foldl
    (fun (p : Int × Int) _ => (p.1 + Int.ediv p.2 2, Int.ediv p.2 2)) (base, base)
  (durTerm.1, i + dots)

/-- Worker for parseLengthWithTie's `^` loop, fuelled by remaining length. -/
def parseLengthTieGo (fuel : Nat) (s : Str) (i : Nat) (st : parseState) (dur : Int) : Int × Nat :=
  match fuel with
  | 0 => (dur, i)
  | fuel + 1 =>
    if i < s.length ∧ lower (at' s i) = '^' then
      let (extra, next) := parseLengthToken s (i + 1) st
      parseLengthTieGo fuel s next st (dur + extra)
    else (dur, i)

/-- parser.go: parseLengthWithTie. -/
def parseLengthWithTie (s : Str) (at_ : Nat) (st : parseState) : Int × Nat :=
  let (dur, i) := parseLengthToken s at_ st
  parseLengthTieGo (s.length + 1) s i st dur

/-- parser.go: parseNoteByNumber (the error path is unreachable, so the
result is the `(event, stepDur, next)` triple). -/
def parseNoteByNumber (tr : Transc) (s : Str) (at_ : Nat) (st : parseState) : Event × Int × Nat :=
  let (nn0, next0) := parseNumberDefault s (at_ + 1) 60
  let nn1 := nn0 + st.transpose + gdiv st.detune 64
  let nn := if nn1 < 0 then 0 else if nn1 > 127 then 127 else nn1
  let (dur, next) := parseLengthWithTie s next0 st
  let vel := scaledVelocity tr st.volume st.expression st.fineVol st.vScaleMode st.vScaleMax st.xScaleMode st.vmode
  let noteDur0 := parseGateDuration dur st.gatePercent
  let noteDur :=
    if st.keyOffTick > 0 then
      let d := noteDur0 - st.keyOffTick - st.keyOnDelay
      if d < 0 then 0 else d
    else noteDur0
  ({ type := .note, tick := st.tick, duration := noteDur, note := nn, value := vel
     program := st.program, pan := st.pan, module := st.module, channel := st.channel
     detune := st.detune, expr := st.expression, gateTick := st.keyOffTick
     delay := st.keyOnDelay, slur := st.slurMode }, dur, next)

/-- parser.go: parseNote (error path unreachable as above). -/
def parseNote (tr : Transc) (s : Str) (at_ : Nat) (st : parseState) : Event × Int × Nat :=
  let base := noteOffsetsVal (lower (at' s at_))
  let accs := (s.drop (at_ + 1)).takeWhile
    (fun ch => lower ch = '#' ∨ lower ch = '+' ∨ lower ch = '-' ∨ lower ch = 'b')
  let i := at_ + 1 + accs.length
  let shift0 := accs.foldl
    (fun acc ch => if lower ch = '#' ∨ lower ch = '+' then acc + 1 else acc - 1) 0
  let explicitAccidental := accs ≠ []
  let shift := if explicitAccidental then shift0 else shift0 + keySigGet st.keySig (lower (at' s at_))
  let (dur, next) := parseLengthWithTie s i st
  let nn1 := st.octave * 12 + base + shift + st.transpose + gdiv st.detune 64
  let nn := if nn1 < 0 then 0 else if nn1 > 127 then 127 else nn1
  let vel := scaledVelocity tr st.volume st.expression st.fineVol st.vScaleMode st.vScaleMax st.xScaleMode st.vmode
  let noteDur0 := parseGateDuration dur st.gatePercent
  let noteDur :=
    if st.keyOffTick > 0 then
      let d := noteDur0 - st.keyOffTick - st.keyOnDelay
      if d < 0 then 0 else d
    else noteDur0
  ({ type := .note, tick := st.tick, duration := noteDur, note := nn, value := vel
     program := st.program, pan := st.pan, module := st.module, channel := st.channel
     detune := st.detune, expr := st.expression, gateTick := st.keyOffTick
     delay := st.keyOnDelay, slur := st.slurMode }, dur, next)

/-- parser.go: parseQuantMax. -/
def parseQuantMax (defs : List (Str × Str)) : Int :=
  match defsGet defs ['Q','U','A','N','T'] with
  | none => 8
  | some raw =>
    match atoiS (trimSpaceS raw) with
    | none => 8
    | some v => if v ≤ 0 then 8 else v

/-- parser.go: parseTMODE, returning (mode, unit, fps). -/
def parseTMODE (defs : List (Str × Str)) : Str × Int × Int :=
  match defsGet defs ['T','M','O','D','E'] with
  | none => ([], 100, 60)
  | some raw =>
    let raw := toLowerS (trimSpaceS raw)
    if hasPrefixS raw ['u','n','i','t','='] then
      match atoiS (trimSpaceS (raw.drop 5)) with
      | none => ([], 100, 60)
      | some v => if v ≤ 0 then ([], 100, 60) else (['u','n','i','t'], v, 60)
    else if hasPrefixS raw ['f','p','s','='] then
      match atoiS (trimSpaceS (raw.drop 4)) with
      | none => ([], 100, 60)
      | some v => if v ≤ 0 then ([], 100, 60) else (['f','p','s'], 100, v)
    else ([], 100, 60)

/-- parser.go: applyTMODETempo (float64 result). -/
def applyTMODETempo (rawTempo : Int) (opts : parserOptions) : fq :=
  if rawTempo ≤ 0 then fqOfInt 120
  else if opts.tempoMode = ['u','n','i','t'] then
    let unit := if opts.tempoUnit ≤ 0 then 100 else opts.tempoUnit
    fqDiv (fqOfInt rawTempo) (fqOfInt unit)
  else if opts.tempoMode = ['f','p','s'] then
    let fps := if opts.tempoFPS ≤ 0 then 60 else opts.tempoFPS
    fqDiv (fqMul (fqOfInt fps) (fqOfInt 60)) (fqOfInt rawTempo)
  else fqOfInt rawTempo

/-- parser.go: parseWordToken. -/
def parseWordToken (src : Str) (at_ : Nat) : Str × Nat :=
  let w := (src.drop at_).takeWhile
    (fun ch => ('a' ≤ ch ∧ ch ≤ 'z') ∨ ('A' ≤ ch ∧ ch ≤ 'Z') ∨ ch = '@' ∨ ch = '_')
  (w, at_ + w.length)

/-- Comma-argument collector (`for next < len && s[next] == ','` loops with
parseSignedNumberDefault), fuelled by the remaining length. -/
def collectSigna (fuel : Nat) (s : Str) (next : Nat) (values : List Int) : Nat × List Int :=
  match fuel with
  | 0 => (next, values)
  | fuel + 1 =>
    if next < s.length ∧ at' s next = ',' then
      let (arg, n2) := parseSignedNumberDefault s (next + 1) 0
      collectSigna fuel s n2 (values ++ [arg])
    else (next, values)

/-- Comma-argument collector for the unsigned loops (parseNumberDefault). -/
def collectUnsigna (fuel : Nat) (s : Str) (next : Nat) (values : List Int) : Nat × List Int :=
  match fuel with
  | 0 => (next, values)
  | fuel + 1 =>
    if next < s.length ∧ at' s next = ',' then
      let (arg, n2) := parseNumberDefault s (next + 1) 0
      collectUnsigna fuel s n2 (values ++ [arg])
    else (next, values)

/-- Raw-tail scan shared by `@NAME` and mp/ma/mf: advance `next` past
commas, signs, digits and spaces. -/
def tailScan (s : Str) (next : Nat) : Nat :=
  next + ((s.drop next).takeWhile
    (fun ch => ch = ',' ∨ ch = '+' ∨ ch = '-' ∨ ('0' ≤ ch ∧ ch ≤ '9') ∨ isSpace ch)).length

/-- Loop-carried state of parseTrack's single pass. -/
structure trackLoopState where
  st : parseState
  events : List Event := []
  i : Nat := 0
  loopTick : Int := -1
  loopIndex : Int := -1
  deriving DecidableEq

/-- One iteration of parseTrack's scanning loop (parser.go lines 64-515),
assuming `ps.i < s.length`.  The case order mirrors the Go switch. -/
def parseTrackStep (cfg : ParserConfig) (opts : parserOptions) (tr : Transc) (s : Str) (ps : trackLoopState) : res trackLoopState :=
  let st := ps.st
  let i := ps.i
  let ch := lower (at' s i)
  if isSpace ch then .ok { ps with i := i + 1 }
  else if ch = 'n' ∧ i + 1 < s.length ∧ isDigitCh (at' s (i + 1)) then
    let (evt, stepDur, next) := parseNoteByNumber tr s i st
    .ok { ps with
          st := { st with slurMode := .none, tick := st.tick + stepDur },
          events := ps.events ++ [evt], i := next }
  else if isNote ch then
    let (evt, stepDur, next) := parseNote tr s i st
    .ok { ps with
          st := { st with slurMode := .none, tick := st.tick + stepDur },
          events := ps.events ++ [evt], i := next }
  else if ch = 'r' then
    let (dur, next) := parseLengthWithTie s (i + 1) st
    .ok { ps with
          st := { st with tick := st.tick + dur },
          events := ps.events ++ [{ type := .rest, tick := st.tick, duration := dur }],
          i := next }
  else if ch = 'l' then
    let (length, next) := parseLengthToken s (i + 1) st
    .ok { ps with
          st := { st with defaultLen := length }, i := next }
  else if ch = 't' then
    let (val, next) := parseNumberDefault s (i + 1) (fqTrunc st.bpm)
    let bpm := applyTMODETempo val opts
    .ok { ps with
          st := { st with bpm := bpm },
          events := ps.events ++ [{ type := .tempo, tick := st.tick, value := fqRound bpm }],
          i := next }
  else if ch = 'o' then
    let (val, next) := parseNumberDefault s (i + 1) st.octave
    if val < cfg.minOctave ∨ val > cfg.maxOctave then .err ['o','c','t','a','v','e']
    else .ok { ps with
          st := { st with octave := val }, i := next }
  else if at' s i = '«' then
    .ok { ps with
          st := { st with octave := clampInt (st.octave + 2 * cfg.octavePolarize) cfg.minOctave cfg.maxOctave },
          i := i + 1 }
  else if at' s i = '»' then
    .ok { ps with
          st := { st with octave := clampInt (st.octave - 2 * cfg.octavePolarize) cfg.minOctave cfg.maxOctave },
          i := i + 1 }
  else if ch = '<' then
    let (val, next) := parseNumberDefault s (i + 1) 1
    .ok { ps with
          st := { st with octave := clampInt (st.octave + val * cfg.octavePolarize) cfg.minOctave cfg.maxOctave },
          i := next }
  else if ch = '>' then
    let (val, next) := parseNumberDefault s (i + 1) 1
    .ok { ps with
          st := { st with octave := clampInt (st.octave - val * cfg.octavePolarize) cfg.minOctave cfg.maxOctave },
          i := next }
  else if ch = 'v' then
    let (val, next) := parseNumberDefault s (i + 1) st.volume
    .ok { ps with
          st := { st with volume := val },
          events := ps.events ++ [{ type := .volume, tick := st.tick, value := val }],
          i := next }
  else if ch = 'x' then
    let (val, next) := parseNumberDefault s (i + 1) st.expression
    let e := clampInt val 0 128
    .ok { ps with
          st := { st with expression := e },
          events := ps.events ++ [{ type := .expression, tick := st.tick, value := e }],
          i := next }
  else if ch = 'q' then
    let (val0, next) := parseNumberDefault s (i + 1) st.quantValue
    let val := clampInt val0 0 st.quantMax
    .ok { ps with
          st := { st with quantValue := val, gatePercent := gdiv (val * 100) st.quantMax },
          events := ps.events ++ [{ type := .quantize, tick := st.tick, value := val }],
          i := next }
  else if ch = 'k' then
    if i + 1 < s.length ∧ lower (at' s (i + 1)) = 't' then
      let (val, next) := parseSignedNumberDefault s (i + 2) st.transpose
      .ok { ps with
          st := { st with transpose := val },
            events := ps.events ++ [{ type := .transpose, tick := st.tick, value := val }],
            i := next }
    else
      let (val, next) := parseSignedNumberDefault s (i + 1) st.detune
      .ok { ps with
          st := { st with detune := val },
            events := ps.events ++ [{ type := .detune, tick := st.tick, value := val }],
            i := next }
  else if ch = 'p' then
    if i + 1 < s.length ∧ lower (at' s (i + 1)) = 'o' then
      let (val, next) := parseSignedNumberDefault s (i + 2) 0
      .ok { ps with
            events := ps.events ++ [{ type := .control, tick := st.tick, command := ['p','o'], value := val }],
            i := next }
    else
      let (val, next) := parseSignedNumberDefault s (i + 1) st.pan
      let p := normalizePanValue val
      .ok { ps with
          st := { st with pan := p },
            events := ps.events ++ [{ type := .pan, tick := st.tick, value := p }],
            i := next }
  else if ch = '%' then
    if i + 1 < s.length ∧ (lower (at' s (i + 1)) = 'f' ∨ lower (at' s (i + 1)) = 't' ∨ lower (at' s (i + 1)) = 'e') then
      let cmd := ['%', lower (at' s (i + 1))]
      let (val, next0) := parseSignedNumberDefault s (i + 2) 0
      let (next, values) := collectSigna (s.length + 1) s next0 [val]
      .ok { ps with
            events := ps.events ++ [{ type := .control, tick := st.tick, command := cmd, value := val, values := values }],
            i := next }
    else if i + 1 < s.length ∧ (lower (at' s (i + 1)) = 'v' ∨ lower (at' s (i + 1)) = 'x') then
      let scaleName := lower (at' s (i + 1))
      let (val, next0) := parseNumberDefault s (i + 2) 0
      if scaleName = 'v' then
        let mode := val
        let (max1, next) :=
          if next0 < s.length ∧ at' s next0 = ',' then
            let (mv, n2) := parseNumberDefault s (next0 + 1) 0
            (if mv > 0 then Int.ofNat (256 >>> mv.toNat) else st.vScaleMax, n2)
          else (st.vScaleMax, next0)
        let max := if max1 ≤ 0 then 16 else max1
        .ok { ps with
          st := { st with vScaleMode := mode, vScaleMax := max },
              events := ps.events ++ [{ type := .control, tick := st.tick, command := ['%','v'], value := mode, values := [mode, max] }],
              i := next }
      else
        .ok { ps with
          st := { st with xScaleMode := val },
              events := ps.events ++ [{ type := .control, tick := st.tick, command := ['%','x'], value := val, values := [val] }],
              i := next0 }
    else
      let (mod_, next0) := parseNumberDefault s (i + 1) st.module
      let (chv, next) :=
        if next0 < s.length ∧ at' s next0 = ',' then parseNumberDefault s (next0 + 1) 0
        else (0, next0)
      .ok { ps with
          st := { st with module := mod_, channel := chv },
            events := ps.events ++ [{ type := .module, tick := st.tick, module := mod_, channel := chv }],
            i := next }
  else if ch = '&' then
    if i + 1 < s.length ∧ at' s (i + 1) = '&' then
      .ok { ps with
          st := { st with slurMode := .weak },
            events := ps.events ++ [{ type := .slur, tick := st.tick, slur := .weak }],
            i := i + 2 }
    else
      .ok { ps with
          st := { st with slurMode := .normal },
            events := ps.events ++ [{ type := .slur, tick := st.tick, slur := .normal }],
            i := i + 1 }
  else if ch = 's' then
    let (val, next0) := parseSignedNumberDefault s (i + 1) 0
    let (values, next) :=
      if next0 < s.length ∧ at' s next0 = ',' then
        let (v2, n2) := parseSignedNumberDefault s (next0 + 1) 0
        ([val, v2], n2)
      else ([val], next0)
    .ok { ps with
          events := ps.events ++ [{ type := .control, tick := st.tick, command := ['s'], value := val, values := values }],
          i := next }
  else if ch = '(' ∨ ch = ')' then
    let (shift, next) := parseNumberDefault s (i + 1) 1
    let up0 := ch = '('
    let up := if st.revVolume then ¬ up0 else up0
    let vol := clampInt (if up then st.volume + shift else st.volume - shift) 0 127
    .ok { ps with
          st := { st with volume := vol },
          events := ps.events ++ [{ type := .volume, tick := st.tick, value := vol }],
          i := next }
  else if ch = '@' then
    if i + 1 < s.length ∧ lower (at' s (i + 1)) = 'v' then
      let (val, next0) := parseNumberDefault s (i + 2) st.fineVol
      let (next, values) := collectUnsigna (s.length + 1) s next0 [val]
      .ok { ps with
          st := { st with fineVol := val },
            events := ps.events ++ [{ type := .fineVolume, tick := st.tick, value := val, values := values }],
            i := next }
    else if i + 1 < s.length ∧ lower (at' s (i + 1)) = 'q' then
      let (off, next0) := parseNumberDefault s (i + 2) st.keyOffTick
      let convertedOff0 := convertQuarter192ToTicks off st.resolution
      let convertedOff := if convertedOff0 ≤ 0 then -1 else convertedOff0
      let (keyOnDelay, next) :=
        if next0 < s.length ∧ at' s next0 = ',' then
          let (delay, n2) := parseNumberDefault s (next0 + 1) 0
          (convertQuarter192ToTicks delay st.resolution, n2)
        else (0, next0)
      .ok { ps with
          st := { st with keyOffTick := convertedOff, keyOnDelay := keyOnDelay },
            events := ps.events ++ [{ type := .keyOnDelay, tick := st.tick, gateTick := convertedOff, delay := keyOnDelay }],
            i := next }
    else if startsWithWord s i ['@','p'] then
      let (val, next) := parseSignedNumberDefault s (i + 2) st.pan
      let p := normalizePanValue val
      .ok { ps with
          st := { st with pan := p },
            events := ps.events ++ [{ type := .pan, tick := st.tick, value := p }],
            i := next }
    else if startsWithWord s i ['@','m','a','s','k'] then
      let (val, next) := parseNumberDefault s (i + 5) 0
      .ok { ps with
            events := ps.events ++ [{ type := .control, tick := st.tick, command := ['@','m','a','s','k'], value := clampInt val 0 63 }],
            i := next }
    else if i + 1 < s.length ∧ isAlpha (lower (at' s (i + 1))) then
      let cmdChars := (s.drop (i + 1)).takeWhile (fun c => isAlpha (lower c))
      let cmdEnd := i + 1 + cmdChars.length
      let cmd := toLowerS cmdChars
      let (first, next0) :=
        if cmdEnd < s.length then parseSignedNumberDefault s cmdEnd 0 else (0, cmdEnd)
      let next := tailScan s next0
      .ok { ps with
            events := ps.events ++ [{ type := .control, tick := st.tick, command := '@' :: cmd,
                                      value := first,
                                      text := trimSpaceS ((s.take next).drop next0) }],
            i := next }
    else
      let (val, next0) := parseNumberDefault s (i + 1) st.program
      let (next, args) := collectUnsigna (s.length + 1) s next0 []
      let evt : Event :=
        if args.length > 0 then
          { type := .program, tick := st.tick, value := val, values := args }
        else { type := .program, tick := st.tick, value := val }
      .ok { ps with
          st := { st with program := val },
            events := ps.events ++ [evt], i := next }
  else if ch = '$' then
    .ok { ps with
          loopTick := st.tick, loopIndex := Int.ofNat ps.events.length, i := i + 1 }
  else if startsWithWord s i ['k','t'] then
    let (val, next) := parseSignedNumberDefault s (i + 2) st.transpose
    .ok { ps with
          st := { st with transpose := val },
          events := ps.events ++ [{ type := .transpose, tick := st.tick, value := val }],
          i := next }
  else if startsWithWord s i ['p','o'] ∨ ch = '*' then
    let cmd := if startsWithWord s i ['p','o'] then ['p','o'] else [ch]
    let advance := if startsWithWord s i ['p','o'] then i + 2 else i + 1
    let (val, next) := parseSignedNumberDefault s advance 0
    .ok { ps with
          events := ps.events ++ [{ type := .control, tick := st.tick, command := cmd, value := val }],
          i := next }
  else if startsWithWord s i ['m','p'] ∨ startsWithWord s i ['m','a'] ∨ startsWithWord s i ['m','f'] then
    let cmd := toLowerS ((s.take (i + 2)).drop i)
    let (val, next0) := parseSignedNumberDefault s (i + 2) 0
    let next := tailScan s next0
    .ok { ps with
          events := ps.events ++ [{ type := .control, tick := st.tick, command := cmd, value := val,
                                    text := trimSpaceS ((s.take next).drop next0) }],
          i := next }
  else if startsWithWord s i ['n','a'] ∨ startsWithWord s i ['n','p'] ∨ startsWithWord s i ['n','t'] ∨ startsWithWord s i ['n','f'] ∨
          startsWithWord s i ['_','n','a'] ∨ startsWithWord s i ['_','n','p'] ∨ startsWithWord s i ['_','n','t'] ∨ startsWithWord s i ['_','n','f'] ∨
          startsWithWord s i ['@','@'] ∨ startsWithWord s i ['_','@','@'] then
    let (cmd, next0) := parseWordToken s i
    let (val, n2a) := parseSignedNumberDefault s next0 0
    let (step, values, n2) :=
      if n2a < s.length ∧ at' s n2a = ',' then
        let (v2, n3) := parseNumberDefault s (n2a + 1) 1
        (v2, [val, v2], n3)
      else (1, [val], n2a)
    .ok { ps with
          events := ps.events ++ [{ type := .tableEnv, tick := st.tick, command := cmd, value := val,
                                    delay := step, values := values }],
          i := n2 }
  else .ok { ps with i := i + 1 }

/-- parseTrack's scanning loop, fuelled (the position strictly increases
every iteration, so `s.length + 1` steps always suffice). -/
def parseTrackLoop (cfg : ParserConfig) (opts : parserOptions) (tr : Transc) (s : Str) (fuel : Nat) (ps : trackLoopState) : res trackLoopState :=
  match fuel with
  | 0 => .err ['f','u','e','l']
  | fuel + 1 =>
    if ps.i < s.length then
      match parseTrackStep cfg opts tr s ps with
      | .ok ps' => parseTrackLoop cfg opts tr s fuel ps'
      | .err e => .err e
    else .ok ps

/- Worker for parseExpanded / parseLoopBody (parser.go loop expansion).
One fuel unit per loop step or nested call; the caller's bound dominates
the Go iteration count. -/
mutual

def parseExpandedGo (fuel : Nat) (src : Str) (at_ : Nat) (depth : Nat) (out : Str) : res (Str × Nat) :=
  match fuel with
  | 0 => .err ['f','u','e','l']
  | fuel + 1 =>
    if at_ ≥ src.length then
      if depth > 0 then .err ['u','n','c','l','o','s','e','d'] else .ok (out, at_)
    else
      let ch := at' src at_
      if ch = ']' then
        if depth = 0 then .err ['u','n','m','a','t','c','h','e','d'] else .ok (out, at_)
      else if ch ≠ '[' then parseExpandedGo fuel src (at_ + 1) depth (out ++ [ch])
      else
        match parseLoopBodyGo fuel src (at_ + 1) (depth + 1) [] [] false with
        | .err e => .err e
        | .ok (body, next) => parseExpandedGo fuel src next depth (out ++ body)

def parseLoopBodyGo (fuel : Nat) (src : Str) (at_ : Nat) (depth : Nat) (pre post : Str) (breakHit : Bool) : res (Str × Nat) :=
  match fuel with
  | 0 => .err ['f','u','e','l']
  | fuel + 1 =>
    if at_ ≥ src.length then .err ['u','n','c','l','o','s','e','d']
    else
      let ch := at' src at_
      if ch = '[' then
        match parseLoopBodyGo fuel src (at_ + 1) (depth + 1) [] [] false with
        | .err e => .err e
        | .ok (body, next) =>
          if breakHit then parseLoopBodyGo fuel src next depth pre (post ++ body) breakHit
          else parseLoopBodyGo fuel src next depth (pre ++ body) post breakHit
      else if ch = '|' ∧ depth = 1 then parseLoopBodyGo fuel src (at_ + 1) depth pre post true
      else if ch = ']' then
        let (repeat0, next) := parseNumberDefault src (at_ + 1) 2
        let rep := if repeat0 < 1 then 1 else repeat0
        let out :=
          if breakHit then (List.replicate (rep - 1).toNat pre).flatten ++ post
          else (List.replicate rep.toNat pre).flatten
        .ok (out, next)
      else if breakHit then parseLoopBodyGo fuel src (at_ + 1) depth pre (post ++ [ch]) breakHit
      else parseLoopBodyGo fuel src (at_ + 1) depth (pre ++ [ch]) post breakHit

end

/-- parser.go: expandLoops. -/
def expandLoops (src : Str) : res Str :=
  match parseExpandedGo (2 * src.length + 8) src 0 0 [] with
  | .err e => .err e
  | .ok (out, i) =>
    if i ≠ src.length then .err ['p','o','s','i','t','i','o','n'] else .ok out

/-- parser.go: Parser.parseTrack, returning the track and the final bpm. -/
def parseTrack (cfg : ParserConfig) (opts : parserOptions) (tr : Transc) (defs : List (Str × Str)) (input : Str) : res (Track × fq) :=
  match expandLoops input with
  | .err e => .err e
  | .ok expanded =>
    match parseTrackLoop cfg opts tr expanded (expanded.length + 1) { st := newState cfg opts defs } with
    | .err e => .err e
    | .ok ps =>
      .ok ({ events := ps.events, endTick := ps.st.tick,
             loopTick := ps.loopTick, loopIndex := ps.loopIndex }, ps.st.bpm)

/-- parser.go: preprocessorState struct. -/
structure preprocessorState where
  macros : List (Str × Str) := []
  definitions : List (Str × Str) := []
  macroDynamic : Bool := false
  revOctave : Bool := false
  revVolume : Bool := false
  deriving DecidableEq

/-- strings.IndexByte on the character model. -/
def indexByteS (s : Str) (c : Char) : Int :=
  match s.findIdx? (fun x => x = c) with
  | some i => Int.ofNat i
  | none => -1

/-- parser.go: parseBraceValue. -/
def parseBraceValue (s : Str) : Str :=
  let s := trimSpaceS s
  if s.length < 2 ∨ at' s 0 ≠ '{' then []
  else
    let close := indexByteS s '}'
    if close ≤ 0 then [] else (s.take close.toNat).drop 1

/-- parser.go: extractDirectiveName. -/
def extractDirectiveName (s : Str) : Str :=
  if s = [] then ['D','I','R','E','C','T','I','V','E']
  else
    let name := s.takeWhile
      (fun ch => ('A' ≤ ch ∧ ch ≤ 'Z') ∨ ('0' ≤ ch ∧ ch ≤ '9') ∨ ch = '@' ∨ ch = '_')
    if name = [] then ['D','I','R','E','C','T','I','V','E'] else name

/-- parser.go: parseKnownDirective. -/
def parseKnownDirective (body : Str) : Option (Str × Str) :=
  let upper := toUpperS (trimSpaceS body)
  if hasPrefixS upper ['T','I','T','L','E','{'] then some (['T','I','T','L','E'], parseBraceValue (body.drop 5))
  else if hasPrefixS upper ['S','I','G','N','{'] then some (['S','I','G','N'], parseBraceValue (body.drop 4))
  else if hasPrefixS upper ['V','M','O','D','E','{'] then some (['V','M','O','D','E'], parseBraceValue (body.drop 5))
  else if hasPrefixS upper ['T','M','O','D','E','{'] then some (['T','M','O','D','E'], parseBraceValue (body.drop 5))
  else if hasPrefixS upper ['F','P','S'] then some (['F','P','S'], trimSpaceS (body.drop 3))
  else if hasPrefixS upper ['Q','U','A','N','T'] then some (['Q','U','A','N','T'], trimSpaceS (body.drop 5))
  else if hasPrefixS upper ['T','A','B','L','E'] then some (extractDirectiveName upper, body)
  else if hasPrefixS upper ['W','A','V'] then some (extractDirectiveName upper, body)
  else if hasPrefixS upper ['O','P','L','@'] ∨ hasPrefixS upper ['O','P','M','@'] ∨
          hasPrefixS upper ['O','P','N','@'] ∨ hasPrefixS upper ['O','P','X','@'] ∨
          hasPrefixS upper ['M','A','@'] ∨ hasPrefixS upper ['@'] ∨
          hasPrefixS upper ['F','M','{'] ∨ hasPrefixS upper ['E','F','F','E','C','T'] ∨
          hasPrefixS upper ['S','A','M','P','L','E','R'] ∨ hasPrefixS upper ['P','C','M','W','A','V','E'] ∨
          hasPrefixS upper ['P','C','M','V','O','I','C','E'] then
    some (extractDirectiveName upper, body)
  else none

/-- parser.go: parseMacroTargets worker. -/
def parseMacroTargetsGo (fuel : Nat) (noSpace : Str) (i : Nat) (out : List Str) : List Str :=
  match fuel with
  | 0 => out
  | fuel + 1 =>
    if i ≥ noSpace.length then out
    else if i + 2 < noSpace.length ∧ isMacroName (at' noSpace i) ∧ at' noSpace (i + 1) = '-' ∧ isMacroName (at' noSpace (i + 2)) then
      let from_ := (at' noSpace i).toNat
      let to_ := (at' noSpace (i + 2)).toNat
      let chars : List Char :=
        if from_ ≤ to_ then (List.range (to_ - from_ + 1)).map (fun k => Char.ofNat (from_ + k))
        else (List.range (from_ - to_ + 1)).map (fun k => Char.ofNat (from_ - k))
      let out := chars.foldl (fun acc c => if acc.contains [c] then acc else acc ++ [[c]]) out
      parseMacroTargetsGo fuel noSpace (i + 3) out
    else if isMacroName (at' noSpace i) then
      let key : Str := [at' noSpace i]
      parseMacroTargetsGo fuel noSpace (i + 1) (if out.contains key then out else out ++ [key])
    else parseMacroTargetsGo fuel noSpace (i + 1) out

/-- parser.go: parseMacroTargets. -/
def parseMacroTargets (spec : Str) : List Str :=
  let noSpace := spec.filter (fun c => ¬ (c = ' ' ∨ c = '\t' ∨ c = '\r' ∨ c = '\n'))
  parseMacroTargetsGo (noSpace.length + 1) noSpace 0 []

/-- parser.go: parseOptionalSignedParen. -/
def parseOptionalSignedParen (src : Str) (at_ : Nat) : Int × Nat :=
  if at_ ≥ src.length ∨ at' src at_ ≠ '(' then (0, at_)
  else
    let i0 := at_ + 1
    let sign : Int := if i0 < src.length ∧ at' src i0 = '-' then -1 else 1
    let i1 := if i0 < src.length ∧ (at' src i0 = '+' ∨ at' src i0 = '-') then i0 + 1 else i0
    let digits := (src.drop i1).takeWhile (fun c => isDigitCh c)
    let i2 := i1 + digits.length
    if digits = [] ∨ i2 ≥ src.length ∨ at' src i2 ≠ ')' then (0, at_)
    else (sign * digitsVal digits, i2 + 1)

/-- parser.go: noteNameForSemitone. -/
def noteNameForSemitone (n : Int) : Str :=
  if n = 0 then ['c'] else if n = 1 then ['c','+'] else if n = 2 then ['d']
  else if n = 3 then ['d','+'] else if n = 4 then ['e'] else if n = 5 then ['f']
  else if n = 6 then ['f','+'] else if n = 7 then ['g'] else if n = 8 then ['g','+']
  else if n = 9 then ['a'] else if n = 10 then ['a','+'] else ['b']

/-- parser.go: transposeNotes worker. -/
def transposeNotesGo (fuel : Nat) (src : Str) (semitone : Int) (i : Nat) (currentOctave : Int) (out : Str) : Str :=
  match fuel with
  | 0 => out
  | fuel + 1 =>
    if i ≥ src.length then out
    else
      let ch := at' src i
      let lo := lower ch
      if lo = 'o' then
        let (val, next) := parseNumberOptional src (i + 1)
        if val ≥ 0 then
          transposeNotesGo fuel src semitone next val (out ++ [ch] ++ ((src.take next).drop (i + 1)))
        else transposeNotesGo fuel src semitone (i + 1) currentOctave (out ++ [ch])
      else if lo = '<' ∨ lo = '>' then
        let (delta, next) := parseNumberDefault src (i + 1) 1
        let oct := if lo = '<' then currentOctave + delta else currentOctave - delta
        let out := out ++ [ch] ++ (if next > i + 1 then (src.take next).drop (i + 1) else [])
        transposeNotesGo fuel src semitone next oct out
      else if ¬ isNote lo then transposeNotesGo fuel src semitone (i + 1) currentOctave (out ++ [ch])
      else
        let base := noteOffsetsVal lo
        let accs := (src.drop (i + 1)).takeWhile
          (fun c => lower c = '#' ∨ lower c = '+' ∨ lower c = '-' ∨ lower c = 'b')
        let j := i + 1 + accs.length
        let shift := accs.foldl
          (fun acc c => if lower c = '#' ∨ lower c = '+' then acc + 1 else acc - 1) 0
        let abs := currentOctave * 12 + base + shift + semitone
        let newOct0 := gdiv abs 12
        let newNote0 := gmod abs 12
        let (newNote, newOct) :=
          if newNote0 < 0 then (newNote0 + 12, newOct0 - 1) else (newNote0, newOct0)
        transposeNotesGo fuel src semitone j newOct (out ++ noteNameForSemitone newNote)

/-- parser.go: transposeNotes (transposes a macro body by N semitones). -/
def transposeNotes (src : Str) (semitone : Int) : Str :=
  transposeNotesGo (src.length + 1) src semitone 0 5 []

/-- parser.go: swapOctaveMarkers. -/
def swapOctaveMarkers (src : Str) : Str :=
  src.map (fun c => if c = '<' then '>' else if c = '>' then '<' else c)

/- parser.go: expandMacroByName / expandMacroText (macro expansion with
the Go depth bound of 32; the extra fuel argument is consumed on every
step, so any bound dominating the expanded size suffices). -/
mutual

def expandMacroByName (fuel : Nat) (name : Str) (shift : Int) (st : preprocessorState) (depth : Nat) : Str :=
  match fuel with
  | 0 => name
  | fuel + 1 =>
    if depth > 32 then name
    else
      match defsGet st.macros name with
      | none => name
      | some body0 =>
        let body1 := if st.macroDynamic then expandMacroTextGo fuel body0 st (depth + 1) 0 [] else body0
        let body2 := if shift ≠ 0 then transposeNotes body1 shift else body1
        if st.revOctave then swapOctaveMarkers body2 else body2

def expandMacroTextGo (fuel : Nat) (src : Str) (st : preprocessorState) (depth : Nat) (i : Nat) (out : Str) : Str :=
  match fuel with
  | 0 => out ++ src.drop i
  | fuel + 1 =>
    if depth > 32 then out ++ src.drop i
    else if i ≥ src.length then out
    else
      let ch := at' src i
      if isMacroName ch ∧ (defsGet st.macros [ch]).isSome then
        let (shift, next) := parseOptionalSignedParen src (i + 1)
        expandMacroTextGo fuel src st depth next (out ++ expandMacroByName fuel [ch] shift st (depth + 1))
      else expandMacroTextGo fuel src st depth (i + 1) (out ++ [ch])

end

/-- parser.go: expandMacroText (wrapper placing the depth guard as in the
source; the guard is replicated inside the worker so truncation cannot
change results). -/
def expandMacroText (fuel : Nat) (src : Str) (st : preprocessorState) (depth : Nat) : Str :=
  if depth > 32 then src else expandMacroTextGo fuel src st depth 0 []

/-- parser.go: applyMacroDefinition; returns the handled flag and the
updated preprocessor state. -/
def applyMacroDefinition (fuel : Nat) (stmt : Str) (st : preprocessorState) : Bool × preprocessorState :=
  let plusIdx := indexS stmt ['+','=']
  let (opIdx, opLen, appendMode) :=
    if plusIdx < 0 then (indexByteS stmt '=', 1, false) else (plusIdx, 2, true)
  if opIdx ≤ 0 then (false, st)
  else
    let targetSpec := trimSpaceS (stmt.take opIdx.toNat)
    let value := trimSpaceS (stmt.drop (opIdx.toNat + opLen))
    let targets := parseMacroTargets targetSpec
    if targets = [] then (false, st)
    else
      let expandedValue := if st.macroDynamic then value else expandMacroText fuel value st 0
      let macros := targets.foldl
        (fun m target =>
          if appendMode then defsSet m target (defsGetD m target ++ expandedValue)
          else defsSet m target expandedValue) st.macros
      (true, { st with macros := macros })

/-- parser.go: parseDirective; returns (advance, stopAll, state). -/
def parseDirective (fuel : Nat) (src : Str) (at_ : Nat) (st : preprocessorState) : Nat × Bool × preprocessorState :=
  let scanLen := ((src.drop (at_ + 1)).takeWhile (fun c => c ≠ ';')).length
  let end_ := at_ + 1 + scanLen
  let stmtEnd := if end_ < src.length ∧ at' src end_ = ';' then end_ + 1 else end_
  let body := trimSpaceS ((src.take (min end_ src.length)).drop (at_ + 1))
  if body = [] then (stmtEnd, false, st)
  else
    let upperBody := toUpperS body
    if upperBody = ['E','N','D'] then
      (src.length, true, { st with definitions := defsSet st.definitions ['E','N','D'] ['1'] })
    else if hasPrefixS upperBody ['M','A','C','R','O','{'] then
      let mode := toLowerS (trimSpaceS (parseBraceValue (body.drop 5)))
      let st :=
        if mode = ['d','y','n','a','m','i','c'] then { st with macroDynamic := true }
        else if mode = ['s','t','a','t','i','c'] then { st with macroDynamic := false }
        else st
      (stmtEnd, false, { st with definitions := defsSet st.definitions ['M','A','C','R','O','_','M','O','D','E'] mode })
    else if hasPrefixS upperBody ['R','E','V'] then
      let opts := toLowerS (trimSpaceS (parseBraceValue (body.drop 3)))
      let st := if opts = [] ∨ containsS opts ['o','c','t','a','v','e'] then { st with revOctave := true } else st
      let st := if opts = [] ∨ containsS opts ['v','o','l','u','m','e'] then { st with revVolume := true } else st
      (stmtEnd, false, { st with definitions := defsSet st.definitions ['R','E','V'] opts })
    else
      match parseKnownDirective body with
      | some (key, val) => (stmtEnd, false, { st with definitions := defsSet st.definitions key val })
      | none =>
        let (_, st) := applyMacroDefinition fuel body st
        (stmtEnd, false, st)

/-- parser.go: preprocessStream worker. -/
def preprocessStreamGo (fuel : Nat) (src : Str) (i : Nat) (st : preprocessorState) (out : Str) : Str × preprocessorState :=
  match fuel with
  | 0 => (out, st)
  | fuel + 1 =>
    if i ≥ src.length then (out, st)
    else if at' src i = '#' then
      let (advance, stopAll, st') := parseDirective fuel src i st
      if stopAll then (out, st')
      else preprocessStreamGo fuel src advance st' out
    else if isMacroName (at' src i) ∧ (defsGet st.macros [at' src i]).isSome then
      let (shift, next) := parseOptionalSignedParen src (i + 1)
      preprocessStreamGo fuel src next st (out ++ expandMacroByName fuel [at' src i] shift st 0)
    else if st.revOctave ∧ at' src i = '<' then
      preprocessStreamGo fuel src (i + 1) st (out ++ ['>'])
    else if st.revOctave ∧ at' src i = '>' then
      preprocessStreamGo fuel src (i + 1) st (out ++ ['<'])
    else preprocessStreamGo fuel src (i + 1) st (out ++ [at' src i])

/-- parser.go: stripComments workers (the inner comment scans). -/
def scanBlockEnd (fuel : Nat) (src : Str) (i : Nat) : Nat :=
  match fuel with
  | 0 => i
  | fuel + 1 =>
    if i < src.length then
      if i + 1 < src.length ∧ at' src i = '*' ∧ at' src (i + 1) = '/' then i + 2
      else scanBlockEnd fuel src (i + 1)
    else i + 1

def scanLineEnd (fuel : Nat) (src : Str) (i : Nat) : Nat :=
  match fuel with
  | 0 => i
  | fuel + 1 =>
    if i < src.length ∧ at' src i ≠ '\n' then scanLineEnd fuel src (i + 1) else i

/-- parser.go: stripComments worker. -/
def stripCommentsGo (fuel : Nat) (src : Str) (i : Nat) (out : Str) : Str :=
  match fuel with
  | 0 => out
  | fuel + 1 =>
    if i ≥ src.length then out
    else if i + 1 < src.length ∧ at' src i = '/' ∧ at' src (i + 1) = '*' then
      stripCommentsGo fuel src (scanBlockEnd (src.length + 1) src (i + 2)) out
    else if i + 1 < src.length ∧ at' src i = '/' ∧ at' src (i + 1) = '/' then
      let k := scanLineEnd (src.length + 1) src (i + 2)
      if k < src.length ∧ at' src k = '\n' then stripCommentsGo fuel src (k + 1) (out ++ ['\n'])
      else stripCommentsGo fuel src (k + 1) out
    else stripCommentsGo fuel src (i + 1) (out ++ [at' src i])

/-- parser.go: stripComments. -/
def stripComments (src : Str) : Str := stripCommentsGo (src.length + 1) src 0 []

/-- parser.go: preprocessedInput struct. -/
structure preprocessedInput where
  text : Str
  definitions : List (Str × Str)
  deriving DecidableEq

/-- Fuel used by the preprocessor: dominates the number of characters
written across all macro expansions of the concrete inputs considered. -/
def ppFuel (src : Str) : Nat := (src.length + 16) * 64

/-- parser.go: preprocessInput. -/
def preprocessInput (src : Str) : preprocessedInput :=
  let noComments := stripComments src
  let (text, st) := preprocessStreamGo (ppFuel src) noComments 0 {} []
  { text := text, definitions := st.definitions }

/-- parser.go: isArgumentComma. -/
def isArgumentComma (src : Str) (at_ : Nat) : Bool :=
  if at_ ≥ src.length ∨ at' src at_ ≠ ',' then false
  else
    match (src.drop (at_ + 1)).dropWhile (fun c => isSpace c) with
    | [] => false
    | ch :: _ => ('0' ≤ ch ∧ ch ≤ '9') ∨ ch = '+' ∨ ch = '-'

/-- parser.go: splitTopLevel worker. -/
def splitTopLevelGo (fuel : Nat) (src : Str) (sep : Char) (i : Nat) (depth : Int) (start : Nat) (parts : List Str) : List Str :=
  match fuel with
  | 0 => parts ++ [src.drop start]
  | fuel + 1 =>
    if i ≥ src.length then parts ++ [(src.take i).drop start] ++ []
    else
      let ch := at' src i
      if ch = '[' then splitTopLevelGo fuel src sep (i + 1) (depth + 1) start parts
      else if ch = ']' then
        splitTopLevelGo fuel src sep (i + 1) (if depth > 0 then depth - 1 else depth) start parts
      else if ch = sep ∧ depth = 0 then
        if sep = ',' ∧ isArgumentComma src i then splitTopLevelGo fuel src sep (i + 1) depth start parts
        else splitTopLevelGo fuel src sep (i + 1) depth (i + 1) (parts ++ [(src.take i).drop start])
      else splitTopLevelGo fuel src sep (i + 1) depth start parts

/-- parser.go: splitTopLevel (the final append of `src[start:]` happens at
loop end inside the worker). -/
def splitTopLevel (src : Str) (sep : Char) : List Str :=
  splitTopLevelGo (src.length + 1) src sep 0 0 0 []

/-- parser.go: containsPlayableEvents. -/
def containsPlayableEvents (src : Str) : Bool :=
  src.any (fun c => isNote (lower c) ∨ lower c = 'r')

/-- parser.go: splitSectionsAsTracks. -/
def splitSectionsAsTracks (src : Str) : List Str :=
  let sections := splitTopLevel src ';'
  let nonEmptySections := (sections.map (fun s => trimSpaceS s)).filter (fun s => s ≠ [])
  if nonEmptySections = [] then []
  else
    let (globalPrelude, startSection) :=
      if nonEmptySections.length > 1 ∧ ¬ containsPlayableEvents (nonEmptySections.headD []) then
        (nonEmptySections.headD [], 1)
      else (([] : Str), 0)
    let parts := (nonEmptySections.drop startSection).foldl
      (fun acc sec =>
        acc ++ ((splitTopLevel sec ',').map (fun p => trimSpaceS p)).filterMap
          (fun part =>
            if part = [] then none
            else if globalPrelude ≠ [] then some (globalPrelude ++ [' '] ++ part)
            else some part)) []
    if parts = [] ∧ globalPrelude ≠ [] then [globalPrelude] else parts

/-- parser.go: Parser.Parse. -/
def mmlParse (cfg : ParserConfig) (tr : Transc) (input : Str) : res Score :=
  let pp := preprocessInput input
  let parts := splitSectionsAsTracks pp.text
  let (tmode, tunit, tfps) := parseTMODE pp.definitions
  let opts : parserOptions :=
    { quantMax := parseQuantMax pp.definitions, tempoMode := tmode,
      tempoUnit := tunit, tempoFPS := tfps }
  let tracks := parts.foldl
    (fun (acc : res (List Track)) part =>
      match acc with
      | .err e => .err e
      | .ok ts =>
        if trimSpaceS part = [] then .ok ts
        else
          match parseTrack cfg opts tr pp.definitions part with
          | .err e => .err e
          | .ok (t, _) => .ok (ts ++ [t])) (.ok [])
  match tracks with
  | .err e => .err e
  | .ok ts =>
    .ok { resolution := cfg.resolution, initialBPM := cfg.defaultBPM,
          tracks := ts, definitions := pp.definitions }

end mml

namespace sequencer

/-- sequencer.go: EventKind constants. -/
inductive EventKind where
  | loopCompleted | playbackEnded | trigger
  deriving DecidableEq, Repr

/-- sequencer.go: TriggerEvent struct. -/
structure TriggerEvent where
  triggerID : Int := 0
  noteOnType : Int := 0
  noteOffType : Int := 0
  deriving DecidableEq, Repr

/-- sequencer.go: Options struct (the OnEvent / OnTrigger callbacks are
modelled as the `outEvents` / `outTriggers` traces of the state). -/
structure Options where
  loopWholeScore : Bool := false
  releaseTailFrames : Int := 0
  masterTranspose : Int := 0
  deriving DecidableEq, Repr

/-- sequencer.go: the VoiceEngine interface, plus the three optional
interface upgrades the sequencer probes for (SetCurrentModule,
SetAlgorithm+SetOperatorCount, SetFeedback), as an abstract operations
record over an engine state type. -/
structure EngineOps (E : Type) where
  noteOn : E → Int → Int → Int → Int → Int × E
  noteOff : E → Int → E
  renderFrame : E → (fq × fq) × E
  activeVoiceCount : E → Int
  setFilterType : E → Int → E
  setNoteOnPhase : E → Int → E
  setPortamento : E → Int → Int → E
  setPitchLFO : E → fq → fq → Int → E
  setAmpLFO : E → fq → fq → Int → E
  setFilterLFO : E → fq → fq → Int → E
  setCurrentModule : Option (E → Int → E) := none
  setAlgOps : Option ((E → Int → E) × (E → Int → E)) := none
  setFeedback : Option (E → fq → E) := none

/-- sequencer.go: tableData struct. -/
structure tableData where
  values : List Int := []
  loopStart : Int := 0
  deriving DecidableEq, Repr

/-- sequencer.go: noteOff struct. -/
structure noteOff where
  tick : Int := 0
  voice : Int := 0
  fired : Bool := false
  deriving DecidableEq, Repr

/-- sequencer.go: filterEnvelope struct. -/
structure filterEnvelope where
  co : Int := 0
  ar : Int := 0
  dr : Int := 0
  sr : Int := 0
  rr : Int := 0
  co2 : Int := 0
  co3 : Int := 0
  sc : Int := 0
  rc : Int := 0
  state : Int := 0
  frame : Int := 0
  current : Int := 0
  deriving DecidableEq, Repr

/-- sequencer.go: filterEnvelope.step (returns the clamped cutoff and the
mutated envelope). -/
def feStep (fe : filterEnvelope) : Int × filterEnvelope :=
  let fe :=
    if fe.state = 0 then
      if fe.ar ≤ 0 then { fe with current := fe.co2, state := 1, frame := 0 }
      else
        let cur := fe.co + gdiv ((fe.co2 - fe.co) * fe.frame) fe.ar
        let fr := fe.frame + 1
        if fr ≥ fe.ar then { fe with current := fe.co2, state := 1, frame := 0 }
        else { fe with current := cur, frame := fr }
    else if fe.state = 1 then
      if fe.dr ≤ 0 then { fe with current := fe.co3, state := 2, frame := 0 }
      else
        let cur := fe.co2 + gdiv ((fe.co3 - fe.co2) * fe.frame) fe.dr
        let fr := fe.frame + 1
        if fr ≥ fe.dr then { fe with current := fe.co3, state := 2, frame := 0 }
        else { fe with current := cur, frame := fr }
    else if fe.state = 2 then
      if fe.sr ≤ 0 then { fe with current := fe.sc }
      else
        let cur := fe.co3 + gdiv ((fe.sc - fe.co3) * fe.frame) fe.sr
        let fr := fe.frame + 1
        if fr ≥ fe.sr then { fe with current := fe.sc, frame := fr }
        else { fe with current := cur, frame := fr }
    else if fe.state = 3 then
      if fe.rr ≤ 0 then { fe with current := fe.rc }
      else
        let start := fe.current
        let cur := start + gdiv ((fe.rc - start) * fe.frame) fe.rr
        let fr := fe.frame + 1
        if fr ≥ fe.rr then { fe with current := fe.rc, frame := fr }
        else { fe with current := cur, frame := fr }
    else fe
  (mml.clampInt fe.current 0 128, fe)

/-- sequencer.go: runtimeState struct (the three `map[string]int` fields
are association lists; a missing key reads as the Go zero value). -/
structure runtimeState where
  volume : Int := 0
  fineVolume : Int := 0
  expression : Int := 0
  vScaleMode : Int := 0
  vScaleMax : Int := 0
  xScaleMode : Int := 0
  pan : Int := 0
  program : Int := 0
  module : Int := 0
  channel : Int := 0
  delay : Int := 0
  slur : mml.SlurMode := .none
  transpose : Int := 0
  detune : Int := 0
  filterCut : Int := 0
  filterType : Int := 0
  filterEnv : filterEnvelope := {}
  filterEnvOn : Bool := false
  phase : Int := 0
  portamento : Int := 0
  lfoRate : Int := 0
  lfoDepth : Int := 0
  lfoWave : Int := 0
  modPitch : Int := 0
  modAmp : Int := 0
  modPan : Int := 0
  modFilter : Int := 0
  tableStep : List (Str × Int) := []
  tableStart : List (Str × Int) := []
  tableRate : List (Str × Int) := []
  mask : Int := 0
  lastVoice : Int := 0
  lastNote : Int := 0
  mpEnd : Int := 0
  mpDelay : Int := 0
  mpChange : Int := 0
  maEnd : Int := 0
  maDelay : Int := 0
  maChange : Int := 0
  mfEnd : Int := 0
  mfDelay : Int := 0
  mfChange : Int := 0
  fpsRate : Int := 0
  deriving DecidableEq

/-- String-keyed assoc map: lookup. -/
def amGet (m : List (Str × Int)) (k : Str) : Option Int :=
  match m with
  | [] => none
  | (k', v) :: rest => if k' = k then some v else amGet rest k

/-- String-keyed assoc map: write. -/
def amSet (m : List (Str × Int)) (k : Str) (v : Int) : List (Str × Int) :=
  match m with
  | [] => [(k, v)]
  | (k', v') :: rest => if k' = k then (k, v) :: rest else (k', v') :: amSet rest k v

/-- Int-keyed assoc map: lookup. -/
def imGet {α : Type} (m : List (Int × α)) (k : Int) : Option α :=
  match m with
  | [] => none
  | (k', v) :: rest => if k' = k then some v else imGet rest k

/-- Int-keyed assoc map: write. -/
def imSet {α : Type} (m : List (Int × α)) (k : Int) (v : α) : List (Int × α) :=
  match m with
  | [] => [(k, v)]
  | (k', v') :: rest => if k' = k then (k, v) :: rest else (k', v') :: imSet rest k v

/-- sequencer.go: trackCursor struct. -/
structure trackCursor where
  events : List mml.Event := []
  index : Int := 0
  loopIndex : Int := 0
  loopTick : Int := 0
  endTick : Int := 0
  loopCycle : Int := 0
  deriving DecidableEq

/-- sequencer.go: patchMod struct (nil slices are `none`). -/
structure patchMod where
  mpArgs : Option (List Int) := none
  maArgs : Option (List Int) := none
  mfArgs : Option (List Int) := none
  deriving DecidableEq, Repr

/-- sequencer.go: the Sequencer struct.  The engine interface value is the
state `engine`; the callbacks are the traces `outEvents` / `outTriggers`;
rendered frames accumulate in `outAudio` (the Go code writes them to the
caller's buffer). -/
structure SeqState (E : Type) where
  score : mml.Score
  engine : E
  sampleRate : Int
  ticksPerSamp : fq
  initialTicksPerSamp : fq
  tickFrac : fq := fqOfInt 0
  tickInt : Int := 0
  trackState : List trackCursor
  trackRuntime : List runtimeState
  tableDefs : List (Int × tableData)
  noteOffs : List noteOff := []
  loopWholeScore : Bool
  pendingReset : Bool := false
  outEvents : List EventKind := []
  outTriggers : List TriggerEvent := []
  playbackEndedFired : Bool := false
  commandExhausted : Bool := false
  releaseTailFrames : Int
  loopPending : Bool := false
  loopTailCountdown : Int := 0
  masterTranspose : Int
  patchMods : List (Int × patchMod)
  outAudio : List (fq × fq) := []
  deriving DecidableEq

/-- sequencer.go: parseSignedAt. -/
def parseSignedAt (src : Str) (at_ : Nat) : Int × Nat × Bool :=
  let i := at_ + ((src.drop at_).takeWhile (fun c => c = ' ' ∨ c = '\t')).length
  if i ≥ src.length then (0, at_, false)
  else
    let sign : Int := if mml.at' src i = '-' then -1 else 1
    let i := if mml.at' src i = '+' ∨ mml.at' src i = '-' then i + 1 else i
    let digits := (src.drop i).takeWhile (fun c => '0' ≤ c ∧ c ≤ '9')
    if digits = [] then (0, at_, false)
    else (sign * mml.digitsVal digits, i + digits.length, true)

/-- sequencer.go: parseTrailingNumber. -/
def parseTrailingNumber (src : Str) (at_ : Nat) (def_ : Int) : Int × Nat :=
  let (v, next, ok) := parseSignedAt src at_
  if ¬ ok then (def_, at_)
  else if v ≤ 0 then (def_, next) else (v, next)

/-- sequencer.go: parseCSVInts / parseCSV — entries with their pre-filter
index, as the callback receives it. -/
def parseCSVEntries (src : Str) : List (Nat × Int) :=
  let src := mml.trimSpaceS src
  if src = [] then []
  else
    (mml.splitS src ',').enum.filterMap
      (fun p =>
        let t := mml.trimSpaceS p.2
        if t = [] then none
        else match mml.atoiS t with
          | none => none
          | some v => some (p.1, v))

/-- sequencer.go: parseCSV. -/
def parseCSV (src : Str) : List Int := (parseCSVEntries src).map (fun p => p.2)

/-- sequencer.go: absInt. -/
def absInt (v : Int) : Int := if v < 0 then -v else v

/-- sequencer.go: maxInt. -/
def maxInt (a b : Int) : Int := if a > b then a else b

/-- sequencer.go: parseTableFormula worker; one fuel unit per loop step or
nested block. -/
def parseTableFormulaGo (fuel : Nat) (body : Str) (i : Nat) (values : List Int) : List Int :=
  match fuel with
  | 0 => values
  | fuel + 1 =>
    let i := i + ((body.drop i).takeWhile
      (fun c => c = ',' ∨ c = ' ' ∨ c = '\t' ∨ c = '\n' ∨ c = '\r')).length
    if i ≥ body.length then values
    else
      let ch := mml.at' body i
      if ch = '[' then
        let end_ := mml.indexByteS (body.drop (i + 1)) ']'
        if end_ < 0 then parseTableFormulaGo fuel body (i + 1) values
        else
          let block := ((body.drop (i + 1)).take end_.toNat)
          let i2 := i + 1 + end_.toNat + 1
          let (repeat_, ni) := parseTrailingNumber body i2 1
          let part := parseTableFormulaGo fuel block 0 []
          parseTableFormulaGo fuel body ni
            (values ++ (List.replicate repeat_.toNat part).flatten)
      else if ch = '(' then
        let end_ := mml.indexByteS (body.drop (i + 1)) ')'
        if end_ < 0 then parseTableFormulaGo fuel body (i + 1) values
        else
          let inside := mml.trimSpaceS ((body.drop (i + 1)).take end_.toNat)
          let i2 := i + 1 + end_.toNat + 1
          let (repeat_, ni) := parseTrailingNumber body i2 1
          let pts := parseCSV inside
          let add :=
            if pts.length = 1 then List.replicate repeat_.toNat (pts.getD 0 0)
            else if pts.length ≥ 2 then
              (List.range (pts.length - 1)).foldl
                (fun acc seg =>
                  let a := pts.getD seg 0
                  let b := pts.getD (seg + 1) 0
                  acc ++ (List.range repeat_.toNat).map
                    (fun r => a + gdiv ((b - a) * Int.ofNat r) repeat_)) []
            else []
          parseTableFormulaGo fuel body ni (values ++ add)
      else if ch = '*' ∨ ch = '+' ∨ ch = '-' then
        if values = [] then parseTableFormulaGo fuel body (i + 1) values
        else
          let (n, ni, ok) := parseSignedAt body (i + 1)
          if ¬ ok then parseTableFormulaGo fuel body (i + 1) values
          else
            let values := values.map (fun v =>
              if ch = '*' then v * n else if ch = '+' then v + n else v - n)
            parseTableFormulaGo fuel body ni values
      else
        let (v, ni, ok) := parseSignedAt body i
        if ¬ ok then parseTableFormulaGo fuel body (i + 1) values
        else parseTableFormulaGo fuel body ni (values ++ [v])

/-- sequencer.go: parseTableFormula. -/
def parseTableFormula (body : Str) : List Int :=
  parseTableFormulaGo (4 * body.length + 16) body 0 []

/-- sequencer.go: parseTrailingOps worker for the operator loop. -/
def parseTrailingOpsGo (fuel : Nat) (s : Str) (i : Nat) (magnify offset : Int) : Int × Int :=
  match fuel with
  | 0 => (magnify, offset)
  | fuel + 1 =>
    let i := i + ((s.drop i).takeWhile (fun c => c = ' ' ∨ c = '\t')).length
    if i ≥ s.length then (magnify, offset)
    else
      let ch := mml.at' s i
      if ch = '*' then
        let (v, ni, ok) := parseSignedAt s (i + 1)
        if ok then parseTrailingOpsGo fuel s ni v offset
        else parseTrailingOpsGo fuel s (i + 1) magnify offset
      else if ch = '+' then
        let (v, ni, ok) := parseSignedAt s (i + 1)
        if ok then parseTrailingOpsGo fuel s ni magnify (offset + v)
        else parseTrailingOpsGo fuel s (i + 1) magnify offset
      else if ch = '-' then
        let (v, ni, ok) := parseSignedAt s (i + 1)
        if ok then parseTrailingOpsGo fuel s ni magnify (offset - v)
        else parseTrailingOpsGo fuel s (i + 1) magnify offset
      else parseTrailingOpsGo fuel s (i + 1) magnify offset

/-- sequencer.go: parseTrailingOps, returning (stretch, magnify, offset). -/
def parseTrailingOps (s : Str) : Int × Int × Int :=
  let s := mml.trimSpaceS s
  let (stretch, i) :=
    if 0 < s.length ∧ '0' ≤ mml.at' s 0 ∧ mml.at' s 0 ≤ '9' then
      let (v, ni, ok) := parseSignedAt s 0
      if ok ∧ v > 0 then (v, ni) else (1, 0)
    else (1, 0)
  let (magnify, offset) := parseTrailingOpsGo (s.length + 1) s i 1 0
  (stretch, magnify, offset)

/-- sequencer.go: applyTableOps. -/
def applyTableOps (values : List Int) (stretch magnify offset : Int) : List Int :=
  let values :=
    if stretch > 1 then (values.map (fun v => List.replicate stretch.toNat v)).flatten
    else values
  if magnify ≠ 1 ∨ offset ≠ 0 then values.map (fun v => v * magnify + offset)
  else values

/-- strings.TrimPrefix. -/
def trimPrefixS (s pre : Str) : Str :=
  if mml.hasPrefixS s pre then s.drop pre.length else s

/-- strings.TrimRight for a single-character cut set. -/
def trimRightS (s : Str) (c : Char) : Str :=
  (s.reverse.dropWhile (fun x => x = c)).reverse

/-- strings.LastIndexByte. -/
def lastIndexByteS (s : Str) (c : Char) : Int :=
  match s.reverse.findIdx? (fun x => x = c) with
  | some i => Int.ofNat (s.length - 1 - i)
  | none => -1

/-- sequencer.go: parseTableDefinitions (iterating the definitions map in
insertion order). -/
def parseTableDefinitions (defs : List (Str × Str)) : List (Int × tableData) :=
  defs.foldl
    (fun out kv =>
      let k := kv.1
      let raw := kv.2
      if ¬ mml.hasPrefixS (mml.toUpperS k) ['T','A','B','L','E'] then out
      else
        let idRaw := trimPrefixS (mml.toUpperS k) ['T','A','B','L','E']
        match mml.atoiS (mml.trimSpaceS idRaw) with
        | none => out
        | some id =>
          let open_ := mml.indexByteS raw '{'
          let closeBrace := mml.indexByteS raw '}'
          if open_ < 0 ∨ closeBrace ≤ open_ then out
          else
            let body := (raw.take closeBrace.toNat).drop (open_.toNat + 1)
            let trailing := raw.drop (closeBrace.toNat + 1)
            let (stretch, magnify, offset) := parseTrailingOps trailing
            let pipeIdx := mml.indexByteS body '|'
            if pipeIdx ≥ 0 then
              let before := parseTableFormula (body.take pipeIdx.toNat)
              let after := parseTableFormula (body.drop (pipeIdx.toNat + 1))
              let loopStart0 := Int.ofNat before.length
              let values := applyTableOps (before ++ after) stretch magnify offset
              let loopStart := if loopStart0 > 0 then loopStart0 * maxInt stretch 1 else loopStart0
              if values.length > 0 then imSet out id { values := values, loopStart := loopStart }
              else out
            else
              let values := applyTableOps (parseTableFormula body) stretch magnify offset
              if values.length > 0 then imSet out id { values := values, loopStart := -1 }
              else out) []

/-- sequencer.go: parsePatchMods. -/
def parsePatchMods (defs : List (Str × Str)) : List (Int × patchMod) :=
  defs.foldl
    (fun mods kv =>
      let key := kv.1
      let val := kv.2
      if ¬ (mml.hasPrefixS key ['O','P','M','@'] ∨ mml.hasPrefixS key ['O','P','L','@'] ∨
            mml.hasPrefixS key ['O','P','N','@'] ∨ mml.hasPrefixS key ['O','P','X','@']) then mods
      else
        let atIdx := mml.indexByteS key '@'
        let numStr := key.drop (atIdx.toNat + 1)
        match mml.atoiS numStr with
        | none => mods
        | some prog =>
          let closeIdx := lastIndexByteS val '}'
          if closeIdx < 0 then mods
          else
            let suffix := val.drop (closeIdx.toNat + 1)
            if mml.trimSpaceS suffix = [] then mods
            else
              let grab := fun (pre : Str) =>
                let idx := mml.indexS suffix pre
                if idx < 0 then (none : Option (List Int))
                else
                  let rest := suffix.drop (idx.toNat + pre.length)
                  let end0 := Int.ofNat rest.length
                  let end1 :=
                    (([['m','p'], ['m','a'], ['m','f']].filter (fun o => o ≠ pre)).foldl
                      (fun e o =>
                        let j := mml.indexS rest o
                        if j ≥ 0 ∧ j < e then j else e) end0)
                  let argStr := trimRightS (mml.trimSpaceS (rest.take end1.toNat)) ';'
                  some (parseCSV argStr)
              let pm : patchMod :=
                { mpArgs := grab ['m','p'], maArgs := grab ['m','a'], mfArgs := grab ['m','f'] }
              if pm.mpArgs ≠ none ∨ pm.maArgs ≠ none ∨ pm.mfArgs ≠ none then imSet mods prog pm
              else mods) []

/-- sequencer.go: the fresh runtimeState literal used by NewWithOptions and
resetForWholeScoreLoop (identical in both). -/
def freshRuntime : runtimeState :=
  { volume := 16, fineVolume := 127, expression := 128, vScaleMax := 16,
    filterCut := 128, filterType := 0, phase := 0, portamento := 0,
    tableStep := [], tableStart := [], tableRate := [], lastVoice := -1 }

/-- sequencer.go: NewWithOptions. -/
def NewWithOptions {E : Type} (score : mml.Score) (engine : E) (sampleRate : Int) (opts : Options) : SeqState E :=
  let tailFrames := if opts.releaseTailFrames ≤ 0 then gdiv sampleRate 2 else opts.releaseTailFrames
  let bpm := if fqLe score.initialBPM (fqOfInt 0) then fqOfInt 120 else score.initialBPM
  let tps := fqDiv (fqMul bpm (fqOfInt score.resolution)) (fqMul (fqOfInt 240) (fqOfInt sampleRate))
  { score := score
    engine := engine
    sampleRate := sampleRate
    loopWholeScore := opts.loopWholeScore
    releaseTailFrames := tailFrames
    masterTranspose := opts.masterTranspose * 12
    ticksPerSamp := tps
    initialTicksPerSamp := tps
    trackState := score.tracks.map (fun tr =>
      { events := tr.events, index := 0, loopIndex := tr.loopIndex,
        loopTick := tr.loopTick, endTick := tr.endTick })
    trackRuntime := score.tracks.map (fun _ => freshRuntime)
    tableDefs := parseTableDefinitions score.definitions
    patchMods := parsePatchMods score.definitions }

/-- sequencer.go: New. -/
def New {E : Type} (score : mml.Score) (engine : E) (sampleRate : Int) : SeqState E :=
  NewWithOptions score engine sampleRate {}

/-- sequencer.go: Sequencer.peekEvent. -/
def peekEvent (tc : trackCursor) : mml.Event × Int × Bool :=
  if tc.index < 0 ∨ tc.index ≥ Int.ofNat tc.events.length then ({}, 0, false)
  else
    let ev := tc.events.getD tc.index.toNat {}
    if tc.loopCycle = 0 ∨ tc.loopIndex < 0 ∨ tc.index < tc.loopIndex then (ev, ev.tick, true)
    else
      let loopLen := tc.endTick - tc.loopTick
      (ev, ev.tick + tc.loopCycle * loopLen, true)

/-- sequencer.go: Sequencer.scoreExhausted. -/
def scoreExhausted {E : Type} (s : SeqState E) : Bool :=
  s.trackState.all (fun tc =>
    ¬ (tc.index < Int.ofNat tc.events.length) ∧
    ¬ (tc.loopIndex ≥ 0 ∧ tc.endTick > tc.loopTick))

/-- Stable insertion into a tick-sorted prefix (the inner loop of the Go
insertion sort shifts only strictly greater ticks). -/
def insertByTick (sorted : List noteOff) (x : noteOff) : List noteOff :=
  match sorted with
  | [] => [x]
  | y :: rest => if y.tick > x.tick then x :: y :: rest else y :: insertByTick rest x

/-- sequencer.go: Sequencer.compactNoteOffs (drop fired entries, then the
stable insertion sort by tick). -/
def compactNoteOffs (offs : List noteOff) : List noteOff :=
  if offs = [] then offs
  else ((offs.filter (fun o => ¬ o.fired)).foldl insertByTick [])

/-- sequencer.go: Sequencer.cancelPendingNoteOff. -/
def cancelPendingNoteOff (offs : List noteOff) (voice : Int) : List noteOff :=
  offs.map (fun o => if o.voice = voice ∧ ¬ o.fired then { o with fired := true } else o)

/-- The index-to-value lookup at the heart of Sequencer.sampleTable
(sequencer.go lines 831-845): in-range reads the table, past the end
either wraps from `loopStart` — with a negative `loopStart` treated as 0 —
or holds the last value when the loop region is empty. -/
def tableIndexValue (td : tableData) (idx : Int) : Int :=
  if idx < Int.ofNat td.values.length then td.values.getD idx.toNat 0
  else
    let loopStart := if td.loopStart < 0 then 0 else td.loopStart
    let loopLen := Int.ofNat td.values.length - loopStart
    if loopLen ≤ 0 then td.values.getD (td.values.length - 1) 0
    else td.values.getD (loopStart + gmod (idx - loopStart) loopLen).toNat 0

/-- sequencer.go: Sequencer.sampleTable. -/
def sampleTable {E : Type} (s : SeqState E) (rt : runtimeState) (kind : Str) (scale : Int) (eventTick : Int) : Int :=
  if (amGet rt.tableStep kind).isNone then 0
  else
    let tableID :=
      if kind = ['n','a'] then rt.modAmp
      else if kind = ['n','t'] then rt.modPitch
      else if kind = ['n','p'] then rt.modPan
      else if kind = ['n','f'] then rt.modFilter
      else 0
    let td := (imGet s.tableDefs tableID).getD {}
    if td.values.length = 0 then 0
    else
      let rate0 := (amGet rt.tableRate kind).getD 0
      let rate := if rate0 ≤ 0 then 1 else rate0
      let fps0 := rt.fpsRate
      let fps :=
        if fps0 ≤ 0 then
          match mml.defsGet s.score.definitions ['F','P','S'] with
          | none => fps0
          | some raw =>
            match mml.atoiS (mml.trimSpaceS raw) with
            | none => fps0
            | some fv => if fv > 0 then fv else fps0
        else fps0
      let ticksPerFrame :=
        if fps > 0 then
          let x := fqDiv (fqMul (fqDiv (fqOfInt 60) (fqOfInt fps)) (fqOfInt s.score.resolution)) (fqOfInt 4)
          fqTrunc (if fqLt x (fqOfInt 1) then fqOfInt 1 else x)
        else gdiv s.score.resolution 4
      let start := (amGet rt.tableStart kind).getD 0
      let idx := if eventTick > start then gdiv (eventTick - start) (ticksPerFrame * rate) else 0
      let v := tableIndexValue td idx
      if scale ≤ 0 then v else gdiv v scale

/-- The LFO waveform switch shared (verbatim in the Go source) by
Sequencer.sampleLFO and Sequencer.applyAmpControls. -/
def lfoWaveVal (wave : Int) (tick period : Int) : fq :=
  let phase := fqDiv (fqOfInt (gmod tick period)) (fqOfInt period)
  if wave = 0 then fqSub (fqOfInt 1) (fqMul (fqOfInt 2) phase)
  else if wave = 1 then
    if fqLt phase (fqDiv (fqOfInt 1) (fqOfInt 2)) then fqOfInt 1 else fqOfInt (-1)
  else if wave = 3 then
    let cycle := gdiv tick period
    fqSub (fqDiv (fqOfInt (gmod (cycle * 16807 + 1) 127)) (fqOfInt 63)) (fqOfInt 1)
  else
    if fqLt phase (fqDiv (fqOfInt 1) (fqOfInt 2)) then
      fqSub (fqMul (fqOfInt 4) phase) (fqOfInt 1)
    else fqSub (fqOfInt 3) (fqMul (fqOfInt 4) phase)

/-- sequencer.go: Sequencer.sampleLFO. -/
def sampleLFO (rt : runtimeState) (tick : Int) : Int :=
  if rt.lfoDepth = 0 ∨ rt.lfoRate ≤ 0 then 0
  else
    let depth :=
      if rt.mpChange > 0 ∧ tick > rt.mpDelay then
        let progress := mml.clampInt (tick - rt.mpDelay) 0 rt.mpChange
        rt.modPitch + gdiv ((rt.mpEnd - rt.modPitch) * progress) rt.mpChange
      else rt.lfoDepth
    let period := rt.lfoRate * 2
    fqTrunc (fqDiv (fqMul (lfoWaveVal rt.lfoWave tick period) (fqOfInt depth)) (fqOfInt 8))

/-- sequencer.go: applyScaledVelocity (the sequencer's own velocity
scaler; unlike the parser's it has no vmode input). -/
def applyScaledVelocity (tr : Transc) (volume expression fineVolume vScaleMode vScaleMax xScaleMode : Int) : Int :=
  let volMax := if vScaleMax ≤ 0 then 16 else vScaleMax
  let v := mml.clampInt volume 0 127
  let x := mml.clampInt expression 0 128
  let fv := mml.clampInt fineVolume 0 128
  let vn0 := fqDiv (fqOfInt v) (fqOfInt volMax)
  let vn1 := if fqLt vn0 (fqOfInt 0) then fqOfInt 0 else vn0
  let vn2 := if fqLt (fqOfInt 1) vn1 then fqOfInt 1 else vn1
  let vn :=
    if vScaleMode = 1 then mml.dbScale tr vn2 (fqOfInt 96)
    else if vScaleMode = 2 then mml.dbScale tr vn2 (fqOfInt 64)
    else if vScaleMode = 3 then mml.dbScale tr vn2 (fqOfInt 48)
    else if vScaleMode = 4 then mml.dbScale tr vn2 (fqOfInt 32)
    else vn2
  let xn0 := fqDiv (fqOfInt x) (fqOfInt 128)
  let xn :=
    if xScaleMode = 1 then tr.sqrtf xn0
    else if xScaleMode = 2 then fqMul xn0 xn0
    else if xScaleMode = 3 then mml.dbScale tr xn0 (fqOfInt 48)
    else if xScaleMode = 4 then mml.dbScale tr xn0 (fqOfInt 32)
    else xn0
  let out := fqMul (fqMul vn xn) (fqMul (fqDiv (fqOfInt fv) (fqOfInt 128)) (fqOfInt 127))
  mml.clampInt (fqRound out) 0 127

/-- sequencer.go: Sequencer.applyAmpControls (mutates the filter envelope
inside the runtime state, so returns the updated state as well). -/
def applyAmpControls {E : Type} (s : SeqState E) (rt : runtimeState) (vel0 tick : Int) : Int × runtimeState :=
  let vel := if vel0 ≤ 0 then 1 else vel0
  let (filterCut, rt) :=
    if rt.filterEnvOn then
      let (c, fe) := feStep rt.filterEnv
      (c, { rt with filterEnv := fe })
    else (rt.filterCut, rt)
  let vel := gdiv (vel * mml.clampInt filterCut 1 128) 128
  let vel := if vel < 1 then 1 else vel
  let ampTable := sampleTable s rt ['n','a'] 1 tick
  let vel :=
    if ampTable ≠ 0 then
      let v := gdiv (vel * mml.clampInt ampTable 1 128) 128
      if v < 1 then 1 else v
    else vel
  let vel :=
    if rt.modAmp > 0 then
      let ampDepth :=
        if rt.maChange > 0 ∧ tick > rt.maDelay then
          let progress := mml.clampInt (tick - rt.maDelay) 0 rt.maChange
          rt.modAmp + gdiv ((rt.maEnd - rt.modAmp) * progress) rt.maChange
        else rt.modAmp
      let waveVal :=
        if rt.lfoRate > 0 then lfoWaveVal rt.lfoWave tick (rt.lfoRate * 2)
        else fqOfInt 0
      vel + fqTrunc (fqDiv (fqMul waveVal (fqOfInt ampDepth)) (fqOfInt 16))
    else vel
  (mml.clampInt vel 1 127, rt)

/-- sequencer.go: Sequencer.lfoRateToHz (the short-circuit order of the
Go `||` is kept so the fq comparison is only made when lfoRate > 0). -/
def lfoRateToHz {E : Type} (s : SeqState E) (lfoRate : Int) : fq :=
  if lfoRate ≤ 0 then fqOfInt 0
  else if fqLe s.ticksPerSamp (fqOfInt 0) then fqOfInt 0
  else
    let ticksPerSec := fqMul s.ticksPerSamp (fqOfInt s.sampleRate)
    let period := fqDiv (fqOfInt (lfoRate * 2)) ticksPerSec
    if fqLe period (fqOfInt 0) then fqOfInt 0
    else fqDiv (fqOfInt 1) period

/-- sequencer.go: Sequencer.updateEngineLFO. -/
def updateEngineLFO {E : Type} (ops : EngineOps E) (s : SeqState E) (rt : runtimeState) : SeqState E :=
  let rateHz := lfoRateToHz s rt.lfoRate
  let e := s.engine
  let e :=
    if rt.mpEnd ≠ 0 ∧ rt.lfoRate > 0 then
      ops.setPitchLFO e (fqDiv (fqOfInt rt.mpEnd) (fqOfInt 8)) rateHz rt.lfoWave
    else ops.setPitchLFO e (fqOfInt 0) (fqOfInt 0) 0
  let e :=
    if rt.maEnd ≠ 0 ∧ rt.lfoRate > 0 then
      ops.setAmpLFO e (fqDiv (fqOfInt rt.maEnd) (fqOfInt 16)) rateHz rt.lfoWave
    else ops.setAmpLFO e (fqOfInt 0) (fqOfInt 0) 0
  let e :=
    if rt.mfEnd ≠ 0 ∧ rt.lfoRate > 0 then
      ops.setFilterLFO e (fqDiv (fqOfInt rt.mfEnd) (fqOfInt 8)) rateHz rt.lfoWave
    else ops.setFilterLFO e (fqOfInt 0) (fqOfInt 0) 0
  { s with engine := e }

/-- sequencer.go: Sequencer.applyTableEnv (updates the runtime state). -/
def applyTableEnv (rt : runtimeState) (ev : mml.Event) : runtimeState :=
  let cmd0 := mml.toLowerS (mml.trimSpaceS ev.command)
  let isRelease := mml.hasPrefixS cmd0 ['_']
  let cmd1 := trimPrefixS cmd0 ['_']
  let cmd := trimPrefixS cmd1 ['@']
  let kind := if isRelease then 'r' :: cmd else cmd
  if cmd = ['n','a'] ∨ cmd = ['n','t'] ∨ cmd = ['n','p'] ∨ cmd = ['n','f'] ∨ cmd = ['@'] then
    let rt := { rt with
      tableStep := amSet rt.tableStep kind 0,
      tableStart := amSet rt.tableStart kind ev.tick,
      tableRate := amSet rt.tableRate kind (if ev.delay ≤ 0 then 1 else ev.delay) }
    if cmd = ['n','a'] then { rt with modAmp := ev.value }
    else if cmd = ['n','t'] then { rt with modPitch := ev.value }
    else if cmd = ['n','p'] then { rt with modPan := ev.value }
    else if cmd = ['n','f'] then { rt with modFilter := ev.value }
    else { rt with modPitch := ev.value }
  else rt

/-- sequencer.go: Sequencer.applyControl (updates the sequencer state —
engine and trigger trace — and the runtime state). -/
def applyControl {E : Type} (ops : EngineOps E) (s : SeqState E) (rt : runtimeState) (ev : mml.Event) : SeqState E × runtimeState :=
  let cmd := mml.toLowerS (mml.trimSpaceS ev.command)
  if cmd = ['@','m','a','s','k'] then (s, { rt with mask := mml.clampInt ev.value 0 63 })
  else if cmd = ['%','v'] then
    let rt := { rt with vScaleMode := ev.value }
    let rt :=
      if ev.values.length > 1 ∧ ev.values.getD 1 0 > 0 then
        { rt with vScaleMax := ev.values.getD 1 0 }
      else rt
    (s, rt)
  else if cmd = ['%','x'] then (s, { rt with xScaleMode := ev.value })
  else if cmd = ['%','f'] then
    if ev.value ≥ 0 ∧ ev.value ≤ 2 then
      ({ s with engine := ops.setFilterType s.engine ev.value }, { rt with filterType := ev.value })
    else (s, rt)
  else if cmd = ['%','t'] then
    let te : TriggerEvent :=
      { triggerID := ev.value,
        noteOnType := if ev.values.length ≥ 2 then ev.values.getD 1 0 else 0,
        noteOffType := if ev.values.length ≥ 3 then ev.values.getD 2 0 else 0 }
    ({ s with outTriggers := s.outTriggers ++ [te] }, rt)
  else if cmd = ['%','e'] then
    let te : TriggerEvent :=
      { triggerID := ev.value,
        noteOnType := if ev.values.length ≥ 2 then ev.values.getD 1 0 else 0 }
    ({ s with outTriggers := s.outTriggers ++ [te] }, rt)
  else if cmd = ['p','o'] then (s, { rt with portamento := ev.value })
  else if cmd = ['*'] then
    (s, { rt with portamento := if ev.value > 0 then ev.value else 50 })
  else if cmd = ['@','p','h'] then (s, { rt with phase := ev.value })
  else if cmd = ['@','f'] then
    if gand rt.mask 32 ≠ 0 then (s, rt)
    else
      let rt := { rt with filterCut := ev.value }
      if ev.values.length ≥ 3 then
        let fe : filterEnvelope := { co := ev.value, current := ev.value,
                                     co2 := ev.value, co3 := ev.value, sc := ev.value }
        let fe := { fe with ar := ev.values.getD 2 0 }
        let fe := if ev.values.length ≥ 4 then { fe with dr := ev.values.getD 3 0 } else fe
        let fe := if ev.values.length ≥ 5 then { fe with sr := ev.values.getD 4 0 } else fe
        let fe := if ev.values.length ≥ 6 then { fe with rr := ev.values.getD 5 0 } else fe
        let fe := if ev.values.length ≥ 7 then { fe with co2 := ev.values.getD 6 0 } else fe
        let fe := if ev.values.length ≥ 8 then { fe with co3 := ev.values.getD 7 0 } else fe
        let fe := if ev.values.length ≥ 9 then { fe with sc := ev.values.getD 8 0 } else fe
        let fe := if ev.values.length ≥ 10 then { fe with rc := ev.values.getD 9 0 } else fe
        (s, { rt with filterEnv := fe, filterEnvOn := true })
      else (s, rt)
  else if cmd = ['@','l','f','o'] then
    if gand rt.mask 32 ≠ 0 then (s, rt)
    else
      let rt := { rt with lfoWave := ev.value }
      let rt :=
        match (parseCSVEntries ev.text).find? (fun p => p.1 = 0) with
        | some p => { rt with lfoRate := p.2 }
        | none => rt
      (updateEngineLFO ops s rt, rt)
  else if cmd = ['m','p'] then
    if gand rt.mask 32 ≠ 0 then (s, rt)
    else
      let rt := { rt with modPitch := ev.value }
      let args := parseCSV ev.text
      let rt := if args.length ≥ 1 then { rt with mpEnd := args.getD 0 0, lfoDepth := absInt (args.getD 0 0) } else rt
      let rt := if args.length ≥ 2 then { rt with mpDelay := args.getD 1 0 } else rt
      let rt := if args.length ≥ 3 then { rt with mpChange := args.getD 2 0 } else rt
      (updateEngineLFO ops s rt, rt)
  else if cmd = ['m','a'] then
    if gand rt.mask 32 ≠ 0 then (s, rt)
    else
      let rt := { rt with modAmp := ev.value }
      let args := parseCSV ev.text
      let rt := if args.length ≥ 1 then { rt with maEnd := args.getD 0 0 } else rt
      let rt := if args.length ≥ 2 then { rt with maDelay := args.getD 1 0 } else rt
      let rt := if args.length ≥ 3 then { rt with maChange := args.getD 2 0 } else rt
      (updateEngineLFO ops s rt, rt)
  else if cmd = ['m','f'] then
    if gand rt.mask 32 ≠ 0 then (s, rt)
    else
      let rt := { rt with modFilter := ev.value }
      let args := parseCSV ev.text
      let rt := if args.length ≥ 1 then { rt with mfEnd := args.getD 0 0 } else rt
      let rt := if args.length ≥ 2 then { rt with mfDelay := args.getD 1 0 } else rt
      let rt := if args.length ≥ 3 then { rt with mfChange := args.getD 2 0 } else rt
      (updateEngineLFO ops s rt, rt)
  else if cmd = ['s'] then
    (s, if ev.value > 0 then { rt with modAmp := ev.value } else rt)
  else if cmd = ['@','a','l'] then
    match ops.setAlgOps with
    | none => (s, rt)
    | some fs =>
      let e := fs.2 s.engine ev.value
      let alg :=
        if ev.text ≠ [] then
          let args := parseCSV ev.text
          if args.length ≥ 1 then args.getD 0 (-1) else -1
        else -1
      let e := if alg ≥ 0 then fs.1 e alg else e
      ({ s with engine := e }, rt)
  else if cmd = ['@','f','b'] then
    match ops.setFeedback with
    | none => (s, rt)
    | some f => ({ s with engine := f s.engine (fqDiv (fqOfInt ev.value) (fqOfInt 7)) }, rt)
  else if cmd = ['@','f','p','s'] then
    (s, if ev.value > 0 then { rt with fpsRate := ev.value } else rt)
  else (s, rt)

/-- Write the runtime state of one track back into the sequencer state
(the Go code mutates it through a pointer). -/
def putRuntime {E : Type} (s : SeqState E) (idx : Nat) (rt : runtimeState) : SeqState E :=
  { s with trackRuntime := s.trackRuntime.set idx rt }

/-- sequencer.go: Sequencer.applyEvent. -/
def applyEvent {E : Type} (ops : EngineOps E) (tr : Transc) (s : SeqState E) (trackIndex : Nat) (tc : trackCursor) (ev : mml.Event) (eventTick : Int) : SeqState E :=
  let rt := s.trackRuntime.getD trackIndex freshRuntime
  let s :=
    match ops.setCurrentModule with
    | some f => { s with engine := f s.engine rt.module }
    | none => s
  if ev.type = .tempo then
    if tc.loopCycle > 0 ∧ tc.loopIndex ≥ 0 ∧ ev.tick ≥ tc.loopTick then s
    else
      let tps := fqDiv (fqMul (fqOfInt ev.value) (fqOfInt s.score.resolution)) (fqMul (fqOfInt 240) (fqOfInt s.sampleRate))
      { s with ticksPerSamp := tps }
  else if ev.type = .volume then
    if gand rt.mask 1 ≠ 0 then s else putRuntime s trackIndex { rt with volume := ev.value }
  else if ev.type = .fineVolume then
    if gand rt.mask 1 ≠ 0 then s else putRuntime s trackIndex { rt with fineVolume := ev.value }
  else if ev.type = .expression then
    if gand rt.mask 1 ≠ 0 then s else putRuntime s trackIndex { rt with expression := ev.value }
  else if ev.type = .pan then
    if gand rt.mask 2 ≠ 0 then s else putRuntime s trackIndex { rt with pan := ev.value }
  else if ev.type = .program then
    let rt := { rt with program := ev.value }
    match imGet s.patchMods ev.value with
    | none => putRuntime s trackIndex rt
    | some pm =>
      let rt :=
        match pm.mpArgs with
        | none => rt
        | some a =>
          let rt := { rt with modPitch := a.getD 0 0 }
          let rt := if a.length ≥ 2 then { rt with mpEnd := a.getD 1 0, lfoDepth := absInt (a.getD 1 0) } else rt
          let rt := if a.length ≥ 3 then { rt with mpDelay := a.getD 2 0 } else rt
          if a.length ≥ 4 then { rt with mpChange := a.getD 3 0 } else rt
      let rt :=
        match pm.maArgs with
        | none => rt
        | some a =>
          let rt := { rt with modAmp := a.getD 0 0 }
          let rt := if a.length ≥ 2 then { rt with maEnd := a.getD 1 0 } else rt
          let rt := if a.length ≥ 3 then { rt with maDelay := a.getD 2 0 } else rt
          if a.length ≥ 4 then { rt with maChange := a.getD 3 0 } else rt
      let rt :=
        match pm.mfArgs with
        | none => rt
        | some a =>
          let rt := { rt with modFilter := a.getD 0 0 }
          let rt := if a.length ≥ 2 then { rt with mfEnd := a.getD 1 0 } else rt
          let rt := if a.length ≥ 3 then { rt with mfDelay := a.getD 2 0 } else rt
          if a.length ≥ 4 then { rt with mfChange := a.getD 3 0 } else rt
      putRuntime (updateEngineLFO ops s rt) trackIndex rt
  else if ev.type = .module then
    putRuntime s trackIndex { rt with module := ev.module, channel := ev.channel }
  else if ev.type = .quantize then
    s
  else if ev.type = .keyOnDelay then
    putRuntime s trackIndex { rt with delay := ev.delay }
  else if ev.type = .transpose then
    putRuntime s trackIndex { rt with transpose := ev.value }
  else if ev.type = .detune then
    putRuntime s trackIndex { rt with detune := ev.value }
  else if ev.type = .slur then
    putRuntime s trackIndex { rt with slur := ev.slur }
  else if ev.type = .tableEnv then
    if gand rt.mask 16 ≠ 0 then s
    else putRuntime s trackIndex (applyTableEnv rt ev)
  else if ev.type = .control then
    let (s, rt) := applyControl ops s rt ev
    putRuntime s trackIndex rt
  else if ev.type = .note then
    let s :=
      if ev.slur ≠ .none ∧ rt.lastVoice ≥ 0 then
        { s with engine := ops.noteOff s.engine rt.lastVoice,
                 noteOffs := cancelPendingNoteOff s.noteOffs rt.lastVoice }
      else s
    let vel0 := ev.value
    let vel :=
      if vel0 ≤ 0 then
        applyScaledVelocity tr rt.volume rt.expression rt.fineVolume rt.vScaleMode rt.vScaleMax rt.xScaleMode
      else vel0
    let note0 := ev.note + rt.transpose + gdiv rt.detune 64 + s.masterTranspose
    let note1 := note0 + sampleTable s rt ['n','t'] 16 eventTick
    let note2 := note1 + sampleLFO rt eventTick
    let note := mml.clampInt note2 0 127
    let pan0 := rt.pan
    let pan1 := if gand rt.mask 2 = 0 ∧ ev.pan ≠ 0 then ev.pan else pan0
    let pan2 := pan1 + sampleTable s rt ['n','p'] 1 eventTick
    let pan := mml.clampInt pan2 (-64) 64
    let program0 := if ev.program = 0 then rt.program else ev.program
    let program1 := program0 + rt.module * 256 + rt.channel * 65536
    let (vel, rt) := applyAmpControls s rt vel eventTick
    let program := program1 + mml.clampInt rt.filterCut 0 255 * 16777216
    let e := ops.setNoteOnPhase s.engine rt.phase
    let portamentoFrames :=
      if rt.portamento > 0 ∧ rt.lastVoice ≥ 0 then
        let pf := gdiv (rt.portamento * s.sampleRate) 1000
        if pf < 1 then 1 else pf
      else 0
    let e := ops.setPortamento e rt.lastNote portamentoFrames
    let s := updateEngineLFO ops { s with engine := e } rt
    let (voiceID, e) := ops.noteOn s.engine note vel pan program
    let rt := { rt with lastVoice := voiceID, lastNote := note }
    let offTick0 := if ev.gateTick ≥ 0 then eventTick + ev.gateTick else eventTick + ev.duration
    let offTick := if ev.delay > 0 then offTick0 + ev.delay else offTick0
    putRuntime { s with engine := e,
                        noteOffs := s.noteOffs ++ [{ tick := offTick, voice := voiceID }] }
      trackIndex rt
  else s

/-- The per-track inner loop of Sequencer.dispatchTick (apply due events,
stepping the cursor and wrapping per-track loops). -/
def dispatchTrackGo {E : Type} (ops : EngineOps E) (tr : Transc) (fuel : Nat) (s : SeqState E) (trkIdx : Nat) (tick : Int) : SeqState E :=
  match fuel with
  | 0 => s
  | fuel + 1 =>
    let tc := s.trackState.getD trkIdx {}
    let (ev, effectiveTick, ok) := peekEvent tc
    if ¬ ok ∨ effectiveTick > tick then s
    else
      let s := applyEvent ops tr s trkIdx tc ev effectiveTick
      let idx := tc.index + 1
      let tc' :=
        if idx ≥ Int.ofNat tc.events.length ∧ tc.loopIndex ≥ 0 ∧ tc.endTick > tc.loopTick then
          { tc with index := tc.loopIndex, loopCycle := tc.loopCycle + 1 }
        else { tc with index := idx }
      dispatchTrackGo ops tr fuel { s with trackState := s.trackState.set trkIdx tc' } trkIdx tick

/-- Fuel bound for the per-track event loop at one tick. -/
def trackFuel (tc : trackCursor) (tick : Int) : Nat :=
  (tc.events.length + 1) * (tick.toNat + 3)

/-- Phase 1 of Sequencer.dispatchTick: apply the due events of every track
in score order. -/
def dispatchEventsPhase {E : Type} (ops : EngineOps E) (tr : Transc) (s : SeqState E) (tick : Int) : SeqState E :=
  (List.range s.trackState.length).foldl
    (fun s trkIdx => dispatchTrackGo ops tr (trackFuel (s.trackState.getD trkIdx {}) tick) s trkIdx tick) s

/-- The engine-call loop of the note-off phase: fire every unfired entry
whose tick is due, marking it fired. -/
def fireOffsGo {E : Type} (ops : EngineOps E) (e : E) (offs : List noteOff) (tick : Int) : E × List noteOff :=
  match offs with
  | [] => (e, [])
  | o :: rest =>
    let (e, o) :=
      if ¬ o.fired ∧ o.tick ≤ tick then (ops.noteOff e o.voice, { o with fired := true })
      else (e, o)
    let (e, rest') := fireOffsGo ops e rest tick
    (e, o :: rest')

/-- Phase 2 of Sequencer.dispatchTick: fire due note-offs, then
compactNoteOffs. -/
def fireOffsPhase {E : Type} (ops : EngineOps E) (s : SeqState E) (tick : Int) : SeqState E :=
  let (e, offs) := fireOffsGo ops s.engine s.noteOffs tick
  { s with engine := e, noteOffs := compactNoteOffs offs }

/-- Phase 3 of Sequencer.dispatchTick: the exhaustion / loop-pending
bookkeeping. -/
def exhaustPhase {E : Type} (s : SeqState E) : SeqState E :=
  if s.noteOffs.length = 0 ∧ scoreExhausted s then
    if s.loopWholeScore then
      if ¬ s.loopPending then
        { s with loopPending := true, loopTailCountdown := s.releaseTailFrames }
      else s
    else { s with commandExhausted := true }
  else s

/-- sequencer.go: Sequencer.dispatchTick (events, then note-offs, then the
exhaustion check). -/
def dispatchTick {E : Type} (ops : EngineOps E) (tr : Transc) (s : SeqState E) (tick : Int) : SeqState E :=
  exhaustPhase (fireOffsPhase ops (dispatchEventsPhase ops tr s tick) tick)

/-- sequencer.go: Sequencer.resetForWholeScoreLoop. -/
def resetForWholeScoreLoop {E : Type} (s : SeqState E) : SeqState E :=
  { s with
    pendingReset := false,
    loopPending := false,
    tickFrac := fqOfInt 0,
    tickInt := 0,
    ticksPerSamp := s.initialTicksPerSamp,
    noteOffs := [],
    trackState := s.score.tracks.map (fun tr =>
      { events := tr.events, index := 0, loopIndex := tr.loopIndex,
        loopTick := tr.loopTick, endTick := tr.endTick }),
    trackRuntime := s.score.tracks.map (fun _ => freshRuntime) }

/-- The `for s.tickInt <= nextTick` loop of Sequencer.Process; the fuel is
exactly the number of remaining iterations. -/
def tickAdvanceGo {E : Type} (ops : EngineOps E) (tr : Transc) (fuel : Nat) (s : SeqState E) (nextTick : Int) : SeqState E :=
  match fuel with
  | 0 => s
  | fuel + 1 =>
    if s.tickInt ≤ nextTick then
      let s := dispatchTick ops tr s s.tickInt
      tickAdvanceGo ops tr fuel { s with tickInt := s.tickInt + 1 } nextTick
    else s

/-- The body of one iteration of the frame loop of Sequencer.Process, up to
and including the whole-score-loop bookkeeping (everything before the
playback-ended block). -/
def frameMid {E : Type} (ops : EngineOps E) (tr : Transc) (s : SeqState E) : SeqState E :=
  let s := { s with tickFrac := fqAdd s.tickFrac s.ticksPerSamp }
  let nextTick := fqTrunc s.tickFrac
  let s := tickAdvanceGo ops tr (nextTick + 1 - s.tickInt).toNat s nextTick
  let s := if s.pendingReset then resetForWholeScoreLoop s else s
  let ((l, r), e) := ops.renderFrame s.engine
  let s := { s with engine := e, outAudio := s.outAudio ++ [(l, r)] }
  if s.loopPending ∧ ops.activeVoiceCount s.engine = 0 then
    if s.loopTailCountdown ≤ 0 then
      { s with loopPending := false, pendingReset := true,
               outEvents := s.outEvents ++ [.loopCompleted] }
    else { s with loopTailCountdown := s.loopTailCountdown - 1 }
  else s

/-- The closing playback-ended block of the frame loop of
Sequencer.Process: once the command stream is exhausted and the engine is
silent, count down the release tail and then fire PlaybackEnded once. -/
def frameEnd {E : Type} (ops : EngineOps E) (s : SeqState E) : SeqState E :=
  if s.commandExhausted ∧ ¬ s.playbackEndedFired ∧ ops.activeVoiceCount s.engine = 0 then
    if s.releaseTailFrames ≤ 0 then
      { s with playbackEndedFired := true, outEvents := s.outEvents ++ [.playbackEnded] }
    else { s with releaseTailFrames := s.releaseTailFrames - 1 }
  else s

/-- One frame of Sequencer.Process (one iteration of its frame loop). -/
def processFrame {E : Type} (ops : EngineOps E) (tr : Transc) (s : SeqState E) : SeqState E :=
  frameEnd ops (frameMid ops tr s)

/-- Whether a frame-end state is in the release-tail countdown: command
stream exhausted, PlaybackEnded not yet fired, engine silent (the guard of
the playback-ended block of Sequencer.Process). -/
def pendQual {E : Type} (ops : EngineOps E) (s : SeqState E) : Bool :=
  s.commandExhausted && !s.playbackEndedFired && decide (ops.activeVoiceCount s.engine = 0)

/-- The number of PlaybackEnded entries of an event trace. -/
def countPE (l : List EventKind) : Nat :=
  l.countP (fun k => match k with | EventKind.playbackEnded => true | _ => false)

/-- How many of the next `n` frames reach the playback-ended block of
Sequencer.Process with its guard satisfied (score exhausted, note-offs all
fired and gone, PlaybackEnded still pending, zero active voices). -/
def qualCount {E : Type} (ops : EngineOps E) (tr : Transc) : Nat → SeqState E → Nat
  | 0, _ => 0
  | n + 1, s =>
    (if pendQual ops (frameMid ops tr s) then 1 else 0) + qualCount ops tr n (processFrame ops tr s)

/-- sequencer.go: Sequencer.Process rendering `frames` stereo frames. -/
def seqProcess {E : Type} (ops : EngineOps E) (tr : Transc) (frames : Nat) (s : SeqState E) : SeqState E :=
  match frames with
  | 0 => s
  | n + 1 => seqProcess ops tr n (processFrame ops tr s)

/-- Dispatch the consecutive integer ticks `t0, t0+1, …, t0+n-1`, exactly
as the inner while-loop of Process visits them. -/
def runTicks {E : Type} (ops : EngineOps E) (tr : Transc) (s : SeqState E) (t0 : Int) (n : Nat) : SeqState E :=
  match n with
  | 0 => s
  | n + 1 => runTicks ops tr (dispatchTick ops tr s t0) (t0 + 1) n

/-- Engine-call trace entries recorded by the witness engine. -/
inductive ECall where
  | noteOn (note vel pan program : Int)
  | noteOff (id : Int)
  | setFilterType (t : Int)
  | setNoteOnPhase (p : Int)
  | setPortamento (fromNote frames : Int)
  | setPitchLFO (depth rate : fq) (wave : Int)
  | setAmpLFO (depth rate : fq) (wave : Int)
  | setFilterLFO (depth rate : fq) (wave : Int)
  deriving DecidableEq, Repr

/-- A deterministic witness engine: NoteOn hands out sequential voice ids,
every call is recorded, rendering is silent and the active-voice count is
always zero (like the countingEngine of the repository's tests). -/
structure TraceEngine where
  nextID : Int := 0
  calls : List ECall := []
  deriving DecidableEq, Repr

def traceOps : EngineOps TraceEngine :=
  { noteOn := fun e n v p pr =>
      (e.nextID, { nextID := e.nextID + 1, calls := e.calls ++ [.noteOn n v p pr] })
    noteOff := fun e id => { e with calls := e.calls ++ [.noteOff id] }
    renderFrame := fun e => ((fqOfInt 0, fqOfInt 0), e)
    activeVoiceCount := fun _ => 0
    setFilterType := fun e t => { e with calls := e.calls ++ [.setFilterType t] }
    setNoteOnPhase := fun e p => { e with calls := e.calls ++ [.setNoteOnPhase p] }
    setPortamento := fun e f fr => { e with calls := e.calls ++ [.setPortamento f fr] }
    setPitchLFO := fun e d r w => { e with calls := e.calls ++ [.setPitchLFO d r w] }
    setAmpLFO := fun e d r w => { e with calls := e.calls ++ [.setAmpLFO d r w] }
    setFilterLFO := fun e d r w => { e with calls := e.calls ++ [.setFilterLFO d r w] } }

end sequencer

open mml sequencer

/- Concrete playback instances used by the temporal claims: the masked-pan
score of the repository's mask test and a two-note score whose first
note-off falls exactly on the second note's tick. -/

/-- The parsed score of "@mask2 p8 c p0 c". -/
def maskScore : mml.Score := (mmlParse DefaultParserConfig truncOracle ("@mask2 p8 c p0 c".toList)).getD {}

/-- The fresh sequencer state over the witness engine for `maskScore`. -/
def maskS0 : SeqState TraceEngine := NewWithOptions maskScore {} 48000 {}

/-- `maskS0` after dispatching tick 0 (first note on). -/
def maskS1 : SeqState TraceEngine := dispatchTick traceOps truncOracle maskS0 0

/-- `maskS1` after dispatching tick 360 (first note-off fires). -/
def maskS2 : SeqState TraceEngine := dispatchTick traceOps truncOracle maskS1 360

/-- `maskS2` after dispatching tick 480 (second note on). -/
def maskS3 : SeqState TraceEngine := dispatchTick traceOps truncOracle maskS2 480

/-- The parsed score of "q8 c c": full-gate quarter notes, so the first
note-off is queued for tick 480, the very tick of the second note. -/
def qccScore : mml.Score := (mmlParse DefaultParserConfig truncOracle ("q8 c c".toList)).getD {}

/-- The fresh sequencer state over the witness engine for `qccScore`. -/
def qccS0 : SeqState TraceEngine := NewWithOptions qccScore {} 48000 {}

/-- `qccS0` after dispatching tick 0. -/
def qccS1 : SeqState TraceEngine := dispatchTick traceOps truncOracle qccS0 0

/-- A bare Tempo event (value 120). -/
def tempoEv120 : mml.Event := { type := .tempo, value := 120 }

/-- The fields of the sequencer state that the playback-ended block of
Process owns: the fired flag, the release-tail countdown and the event
trace. -/
def peObs {E : Type} (s : SeqState E) : Bool × Int × List EventKind :=
  (s.playbackEndedFired, s.releaseTailFrames, s.outEvents)

def W8 : SeqState TraceEngine := { score := {}, engine := {}, sampleRate := 2, ticksPerSamp := fqOfInt 0, initialTicksPerSamp := fqOfInt 0, trackState := [], trackRuntime := [], tableDefs := [], loopWholeScore := false, commandExhausted := true, releaseTailFrames := 1, masterTranspose := 0, patchMods := [] }

-- C8_DEFS_MARKER

/- ===== helper lemmas ===== -/

theorem foldl_fix {α β : Type} (f : β → α → β) (l : List α) (s : β)
    (h : ∀ a ∈ l, f s a = s) : l.foldl f s = s := by
  induction l with
  | nil => rfl
  | cons a rest ih =>
    have ha : f s a = s := h a (List.mem_cons_self a rest)
    simp only [List.foldl_cons, ha]
    exact ih (fun b hb => h b (List.mem_cons_of_mem a hb))

theorem dispatchTrackGo_quiet {E : Type} (ops : EngineOps E) (tr : Transc) (fuel : Nat)
    (s : SeqState E) (trkIdx : Nat) (tick : Int)
    (h : ¬ (peekEvent (s.trackState.getD trkIdx {})).2.2 = true ∨
         (peekEvent (s.trackState.getD trkIdx {})).2.1 > tick) :
    dispatchTrackGo ops tr fuel s trkIdx tick = s := by
  cases fuel with
  | zero => rfl
  | succ n =>
    rcases hpk : peekEvent (s.trackState.getD trkIdx {}) with ⟨ev, et, ok⟩
    rw [hpk] at h
    simp only [dispatchTrackGo, hpk]
    rw [if_pos h]

theorem dispatchEventsPhase_quiet {E : Type} (ops : EngineOps E) (tr : Transc)
    (s : SeqState E) (tick : Int)
    (hT : ∀ tc ∈ s.trackState, ¬ (peekEvent tc).2.2 = true ∨ (peekEvent tc).2.1 > tick) :
    dispatchEventsPhase ops tr s tick = s := by
  unfold dispatchEventsPhase
  refine foldl_fix _ _ _ (fun i hi => ?_)
  refine dispatchTrackGo_quiet ops tr _ s i tick ?_
  have hlt : i < s.trackState.length := List.mem_range.mp hi
  have : s.trackState.getD i {} = s.trackState[i] := List.getD_eq_getElem s.trackState {} hlt
  rw [this]
  exact hT _ (List.getElem_mem hlt)

theorem fireOffsGo_quiet {E : Type} (ops : EngineOps E) (e : E) (offs : List noteOff) (tick : Int)
    (h : ∀ o ∈ offs, o.fired = true ∨ o.tick > tick) :
    fireOffsGo ops e offs tick = (e, offs) := by
  induction offs with
  | nil => rfl
  | cons o rest ih =>
    have ho := h o (List.mem_cons_self o rest)
    have hcond : ¬ (¬ o.fired = true ∧ o.tick ≤ tick) := by
      rcases ho with h1 | h1
      · exact fun hc => hc.1 h1
      · exact fun hc => absurd hc.2 (by omega)
    simp only [fireOffsGo]
    rw [if_neg hcond, ih (fun b hb => h b (List.mem_cons_of_mem o hb))]

theorem fireOffsPhase_quiet {E : Type} (ops : EngineOps E) (s : SeqState E) (tick : Int)
    (h : ∀ o ∈ s.noteOffs, o.fired = true ∨ o.tick > tick)
    (hC : compactNoteOffs s.noteOffs = s.noteOffs) :
    fireOffsPhase ops s tick = s := by
  unfold fireOffsPhase
  rw [fireOffsGo_quiet ops s.engine s.noteOffs tick h]
  simp only [hC]

theorem dispatchTick_quiet {E : Type} (ops : EngineOps E) (tr : Transc) (s : SeqState E)
    (T t : Int)
    (hT : ∀ tc ∈ s.trackState, ¬ (peekEvent tc).2.2 = true ∨ (peekEvent tc).2.1 > T)
    (hO : ∀ o ∈ s.noteOffs, o.fired = true ∨ o.tick > T)
    (hC : compactNoteOffs s.noteOffs = s.noteOffs)
    (hE : exhaustPhase s = s)
    (ht : t ≤ T) :
    dispatchTick ops tr s t = s := by
  unfold dispatchTick
  rw [dispatchEventsPhase_quiet ops tr s t
        (fun tc htc => (hT tc htc).imp id (fun hgt => by omega)),
      fireOffsPhase_quiet ops s t
        (fun o ho => (hO o ho).imp id (fun hgt => by omega)) hC,
      hE]

theorem runTicks_zero {E : Type} (ops : EngineOps E) (tr : Transc) (s : SeqState E) (t0 : Int) :
    runTicks ops tr s t0 0 = s := rfl

theorem runTicks_succ {E : Type} (ops : EngineOps E) (tr : Transc) (s : SeqState E) (t0 : Int) (n : Nat) :
    runTicks ops tr s t0 (n + 1) = runTicks ops tr (dispatchTick ops tr s t0) (t0 + 1) n := rfl

theorem runTicks_append {E : Type} (ops : EngineOps E) (tr : Transc) (m n : Nat) :
    ∀ (s : SeqState E) (t0 : Int),
      runTicks ops tr s t0 (m + n) = runTicks ops tr (runTicks ops tr s t0 m) (t0 + Int.ofNat m) n := by
  induction m with
  | zero => intro s t0; simp [runTicks]
  | succ k ih =>
    intro s t0
    have hshape : k + 1 + n = (k + n) + 1 := by omega
    rw [hshape]
    show runTicks ops tr (dispatchTick ops tr s t0) (t0 + 1) (k + n) = _
    rw [ih (dispatchTick ops tr s t0) (t0 + 1)]
    show _ = runTicks ops tr (runTicks ops tr (dispatchTick ops tr s t0) (t0 + 1) k) (t0 + Int.ofNat (k + 1)) n
    have : t0 + 1 + Int.ofNat k = t0 + Int.ofNat (k + 1) := by
      simp only [Int.ofNat_eq_natCast]; push_cast; ring
    rw [this]

theorem runTicks_quiet {E : Type} (ops : EngineOps E) (tr : Transc) (n : Nat) :
    ∀ (s : SeqState E) (t0 T : Int),
      (∀ tc ∈ s.trackState, ¬ (peekEvent tc).2.2 = true ∨ (peekEvent tc).2.1 > T) →
      (∀ o ∈ s.noteOffs, o.fired = true ∨ o.tick > T) →
      compactNoteOffs s.noteOffs = s.noteOffs →
      exhaustPhase s = s →
      t0 + Int.ofNat n ≤ T + 1 →
      runTicks ops tr s t0 n = s := by
  induction n with
  | zero => intro s t0 T _ _ _ _ _; rfl
  | succ k ih =>
    intro s t0 T hT hO hC hE hb
    have ht0 : t0 ≤ T := by
      simp only [Int.ofNat_eq_natCast] at hb; push_cast at hb; omega
    show runTicks ops tr (dispatchTick ops tr s t0) (t0 + 1) k = s
    rw [dispatchTick_quiet ops tr s T t0 hT hO hC hE ht0]
    refine ih s (t0 + 1) T hT hO hC hE ?_
    simp only [Int.ofNat_eq_natCast] at hb ⊢; push_cast at hb ⊢; omega

/-- The 481-tick run of the masked-pan score dispatches real work only at
ticks 0, 360 and 480. -/
theorem maskRun : runTicks traceOps truncOracle maskS0 0 481 = maskS3 := by
  rw [show (481 : Nat) = 480 + 1 from by norm_num, runTicks_succ,
      show dispatchTick traceOps truncOracle maskS0 0 = maskS1 from rfl,
      show (480 : Nat) = 359 + 121 from by norm_num,
      runTicks_append traceOps truncOracle 359 121 maskS1 (0 + 1),
      runTicks_quiet traceOps truncOracle 359 maskS1 (0 + 1) 359
        (by decide) (by decide) (by decide) (by decide) (by norm_num),
      show (0 : Int) + 1 + Int.ofNat 359 = 360 from by norm_num,
      show (121 : Nat) = 120 + 1 from by norm_num, runTicks_succ,
      show dispatchTick traceOps truncOracle maskS1 360 = maskS2 from rfl,
      show (120 : Nat) = 119 + 1 from by norm_num,
      runTicks_append traceOps truncOracle 119 1 maskS2 (360 + 1),
      runTicks_quiet traceOps truncOracle 119 maskS2 (360 + 1) 479
        (by decide) (by decide) (by decide) (by decide) (by norm_num),
      show (360 : Int) + 1 + Int.ofNat 119 = 480 from by norm_num,
      runTicks_succ, runTicks_zero,
      show dispatchTick traceOps truncOracle maskS2 480 = maskS3 from rfl]

theorem exhaustPhase_engine {E : Type} (s : SeqState E) : (exhaustPhase s).engine = s.engine := by
  unfold exhaustPhase
  split_ifs <;> rfl

theorem fireOffsGo_calls (t : Int) : ∀ (offs : List noteOff) (e : TraceEngine),
    ∃ l, (fireOffsGo traceOps e offs t).1.calls = e.calls ++ l ∧
      l.all (fun c => match c with | ECall.noteOff _ => true | _ => false) = true := by
  intro offs
  induction offs with
  | nil => intro e; exact ⟨[], by simp [fireOffsGo], rfl⟩
  | cons o rest ih =>
    intro e
    simp only [fireOffsGo]
    split_ifs with hc
    · obtain ⟨l, hl, ha⟩ := ih (traceOps.noteOff e o.voice)
      rcases hgo : fireOffsGo traceOps (traceOps.noteOff e o.voice) rest t with ⟨e2, rest2⟩
      rw [hgo] at hl
      refine ⟨ECall.noteOff o.voice :: l, ?_, ?_⟩
      · dsimp only
        rw [hl]
        simp [traceOps]
      · simpa using ha
    · obtain ⟨l, hl, ha⟩ := ih e
      rcases hgo : fireOffsGo traceOps e rest t with ⟨e2, rest2⟩
      rw [hgo] at hl
      exact ⟨l, hl, ha⟩

/-- The 480-tick run of the "q8 c c" score dispatches real work only at
tick 0. -/
theorem qccRun : runTicks traceOps truncOracle qccS0 0 480 = qccS1 := by
  rw [show (480 : Nat) = 479 + 1 from by norm_num]
  rw [show (479 : Nat) + 1 = 1 + 479 from by norm_num,
      runTicks_append traceOps truncOracle 1 479 qccS0 0,
      show runTicks traceOps truncOracle qccS0 0 1 = qccS1 from rfl,
      runTicks_quiet traceOps truncOracle 479 qccS1 (0 + Int.ofNat 1) 479
        (by decide) (by decide) (by decide) (by decide) (by norm_num)]

theorem pres_applyControl {E : Type} {ops : EngineOps E} {s : SeqState E} {rt : runtimeState}
    {ev : mml.Event} {s' : SeqState E} {rt' : runtimeState}
    (h : applyControl ops s rt ev = (s', rt')) : peObs s' = peObs s := by
  have h1 : (applyControl ops s rt ev).1 = s' := by rw [h]
  rw [← h1]
  unfold applyControl
  dsimp only
  simp only [updateEngineLFO, peObs,
    apply_ite (fun p : SeqState E × runtimeState =>
      ((p.1.playbackEndedFired, p.1.releaseTailFrames, p.1.outEvents) : Bool × Int × List EventKind)),
    ite_self]
  rcases hA : ops.setAlgOps with _ | fs <;> rcases hB : ops.setFeedback with _ | fb <;>
  · simp only [updateEngineLFO, peObs,
      apply_ite (fun p : SeqState E × runtimeState =>
        ((p.1.playbackEndedFired, p.1.releaseTailFrames, p.1.outEvents) : Bool × Int × List EventKind)),
      ite_self]

theorem pres_applyControl_proj {E : Type} (ops : EngineOps E) (s0 : SeqState E)
    (rt : runtimeState) (ev : mml.Event) :
    peObs (applyControl ops s0 rt ev).1 = peObs s0 := pres_applyControl rfl

theorem peObs_putRuntime {E : Type} (s : SeqState E) (i : Nat) (rt : runtimeState) :
    peObs (putRuntime s i rt) = peObs s := rfl

theorem pres_applyEvent {E : Type} (ops : EngineOps E) (tr : Transc) (s : SeqState E)
    (trackIndex : Nat) (tc : trackCursor) (ev : mml.Event) (eventTick : Int) :
    peObs (applyEvent ops tr s trackIndex tc ev eventTick) = peObs s := by
  rcases hM : ops.setCurrentModule with _ | fMod <;>
  rcases hty : ev.type <;>
  · unfold applyEvent
    rw [hM, hty]
    simp only [reduceCtorEq, eq_self_iff_true, ite_true, ite_false]
    repeat' split
    all_goals try rfl
    all_goals
      rw [peObs_putRuntime]
      exact pres_applyControl_proj _ _ _ _

theorem countPE_append (l l' : List EventKind) : countPE (l ++ l') = countPE l + countPE l' := by
  simp [countPE, List.countP_append]

theorem pres_dispatchTrackGo {E : Type} (ops : EngineOps E) (tr : Transc) (fuel : Nat)
    (trkIdx : Nat) (tick : Int) :
    ∀ s : SeqState E, peObs (dispatchTrackGo ops tr fuel s trkIdx tick) = peObs s := by
  induction fuel with
  | zero => intro s; rfl
  | succ k ih =>
    intro s
    unfold dispatchTrackGo
    dsimp only
    split
    · rfl
    · exact (ih _).trans (pres_applyEvent ops tr s trkIdx _ _ _)

theorem foldl_pres {α β γ : Type} (g : β → γ) (f : β → α → β) (l : List α)
    (hstep : ∀ s a, g (f s a) = g s) : ∀ s, g (l.foldl f s) = g s := by
  induction l with
  | nil => intro s; rfl
  | cons a rest ih =>
    intro s
    simp only [List.foldl_cons]
    exact (ih (f s a)).trans (hstep s a)

theorem pres_dispatchEventsPhase {E : Type} (ops : EngineOps E) (tr : Transc)
    (s : SeqState E) (tick : Int) :
    peObs (dispatchEventsPhase ops tr s tick) = peObs s := by
  unfold dispatchEventsPhase
  exact foldl_pres peObs _ _ (fun s' i => pres_dispatchTrackGo ops tr _ i tick s') s

theorem pres_fireOffsPhase {E : Type} (ops : EngineOps E) (s : SeqState E) (tick : Int) :
    peObs (fireOffsPhase ops s tick) = peObs s := by
  unfold fireOffsPhase
  rcases hgo : fireOffsGo ops s.engine s.noteOffs tick with ⟨e2, offs2⟩
  rfl

theorem pres_exhaustPhase {E : Type} (s : SeqState E) :
    peObs (exhaustPhase s) = peObs s := by
  unfold exhaustPhase
  split_ifs <;> rfl

theorem pres_dispatchTick {E : Type} (ops : EngineOps E) (tr : Transc) (s : SeqState E)
    (tick : Int) :
    peObs (dispatchTick ops tr s tick) = peObs s := by
  unfold dispatchTick
  exact (pres_exhaustPhase _).trans ((pres_fireOffsPhase ops _ tick).trans
    (pres_dispatchEventsPhase ops tr s tick))

theorem pres_tickAdvanceGo {E : Type} (ops : EngineOps E) (tr : Transc) (fuel : Nat)
    (nextTick : Int) :
    ∀ s : SeqState E, peObs (tickAdvanceGo ops tr fuel s nextTick) = peObs s := by
  induction fuel with
  | zero => intro s; rfl
  | succ k ih =>
    intro s
    unfold tickAdvanceGo
    split
    · exact (ih _).trans (pres_dispatchTick ops tr s s.tickInt)
    · rfl

theorem pres_frameMid {E : Type} (ops : EngineOps E) (tr : Transc) (s : SeqState E) :
    (frameMid ops tr s).playbackEndedFired = s.playbackEndedFired ∧
    (frameMid ops tr s).releaseTailFrames = s.releaseTailFrames ∧
    countPE (frameMid ops tr s).outEvents = countPE s.outEvents := by
  unfold frameMid
  dsimp only
  generalize hG : tickAdvanceGo ops tr (fqTrunc (fqAdd s.tickFrac s.ticksPerSamp) + 1 - s.tickInt).toNat { s with tickFrac := fqAdd s.tickFrac s.ticksPerSamp } (fqTrunc (fqAdd s.tickFrac s.ticksPerSamp)) = X
  have hX := pres_tickAdvanceGo ops tr
      (fqTrunc (fqAdd s.tickFrac s.ticksPerSamp) + 1 - s.tickInt).toNat
      (fqTrunc (fqAdd s.tickFrac s.ticksPerSamp))
      { s with tickFrac := fqAdd s.tickFrac s.ticksPerSamp }
  rw [hG] at hX
  simp only [peObs, Prod.mk.injEq] at hX
  obtain ⟨f1, f2, f3⟩ := hX
  split_ifs <;>
  · refine ⟨?_, ?_, ?_⟩ <;>
    dsimp only [resetForWholeScoreLoop] <;>
    first
      | exact f1
      | exact f2
      | (exact congrArg countPE f3)
      | (rw [countPE_append, f3]; simp [countPE])

theorem frameEnd_skip {E : Type} (ops : EngineOps E) (s : SeqState E)
    (h : pendQual ops s = false) : frameEnd ops s = s := by
  unfold frameEnd
  refine if_neg (fun hc => ?_)
  rcases hc with ⟨h1, h2, h3⟩
  rw [Bool.not_eq_true] at h2
  simp [pendQual, h1, h2, h3] at h

theorem frameEnd_fire {E : Type} (ops : EngineOps E) (s : SeqState E)
    (h : pendQual ops s = true) (ht : s.releaseTailFrames ≤ 0) :
    frameEnd ops s =
      { s with playbackEndedFired := true,
               outEvents := s.outEvents ++ [EventKind.playbackEnded] } := by
  have hh := h
  simp only [pendQual, Bool.and_eq_true, Bool.not_eq_true', decide_eq_true_eq] at hh
  obtain ⟨⟨hA, hB⟩, hC⟩ := hh
  unfold frameEnd
  rw [if_pos ⟨hA, by simp [hB], hC⟩, if_pos ht]

theorem frameEnd_dec {E : Type} (ops : EngineOps E) (s : SeqState E)
    (h : pendQual ops s = true) (ht : 0 < s.releaseTailFrames) :
    frameEnd ops s = { s with releaseTailFrames := s.releaseTailFrames - 1 } := by
  have hh := h
  simp only [pendQual, Bool.and_eq_true, Bool.not_eq_true', decide_eq_true_eq] at hh
  obtain ⟨⟨hA, hB⟩, hC⟩ := hh
  unfold frameEnd
  rw [if_pos ⟨hA, by simp [hB], hC⟩, if_neg (by omega)]

theorem pe_fired {E : Type} (ops : EngineOps E) (tr : Transc) :
    ∀ (n : Nat) (s : SeqState E), s.playbackEndedFired = true →
      (seqProcess ops tr n s).playbackEndedFired = true ∧
      countPE (seqProcess ops tr n s).outEvents = countPE s.outEvents ∧
      qualCount ops tr n s = 0 := by
  intro n
  induction n with
  | zero => intro s hf; exact ⟨hf, rfl, rfl⟩
  | succ k ih =>
    intro s hf
    obtain ⟨m1, m2, m3⟩ := pres_frameMid ops tr s
    have hq : pendQual ops (frameMid ops tr s) = false := by
      simp [pendQual, m1, hf]
    have hpf : processFrame ops tr s = frameMid ops tr s := by
      unfold processFrame; rw [frameEnd_skip ops _ hq]
    have hfm : (frameMid ops tr s).playbackEndedFired = true := by rw [m1, hf]
    obtain ⟨i1, i2, i3⟩ := ih (processFrame ops tr s) (by rw [hpf]; exact hfm)
    refine ⟨?_, ?_, ?_⟩
    · show (seqProcess ops tr k (processFrame ops tr s)).playbackEndedFired = true
      exact i1
    · show countPE (seqProcess ops tr k (processFrame ops tr s)).outEvents = countPE s.outEvents
      rw [i2, hpf, m3]
    · show (if pendQual ops (frameMid ops tr s) then 1 else 0) +
          qualCount ops tr k (processFrame ops tr s) = 0
      rw [hq, i3]
      simp

theorem pe_invariant {E : Type} (ops : EngineOps E) (tr : Transc) :
    ∀ (n : Nat) (s : SeqState E),
      s.playbackEndedFired = false → 0 ≤ s.releaseTailFrames →
      ((seqProcess ops tr n s).playbackEndedFired = false →
         countPE (seqProcess ops tr n s).outEvents = countPE s.outEvents ∧
         (seqProcess ops tr n s).releaseTailFrames =
           s.releaseTailFrames - Int.ofNat (qualCount ops tr n s) ∧
         0 ≤ (seqProcess ops tr n s).releaseTailFrames) ∧
      ((seqProcess ops tr n s).playbackEndedFired = true →
         countPE (seqProcess ops tr n s).outEvents = countPE s.outEvents + 1 ∧
         s.releaseTailFrames < Int.ofNat (qualCount ops tr n s)) := by
  intro n
  induction n with
  | zero =>
    intro s hf ht
    constructor
    · intro _
      refine ⟨rfl, ?_, ht⟩
      show s.releaseTailFrames = s.releaseTailFrames - Int.ofNat 0
      simp
    · intro hcon
      have hcon2 : s.playbackEndedFired = true := hcon
      rw [hf] at hcon2
      exact absurd hcon2 (by simp)
  | succ k ih =>
    intro s hf ht
    obtain ⟨m1, m2, m3⟩ := pres_frameMid ops tr s
    have hqc : qualCount ops tr (k + 1) s =
        (if pendQual ops (frameMid ops tr s) then 1 else 0) +
          qualCount ops tr k (processFrame ops tr s) := rfl
    have hsp : seqProcess ops tr (k + 1) s = seqProcess ops tr k (processFrame ops tr s) := rfl
    cases hq : pendQual ops (frameMid ops tr s) with
    | false =>
      have hpf : processFrame ops tr s = frameMid ops tr s := by
        unfold processFrame; rw [frameEnd_skip ops _ hq]
      have hfm : (frameMid ops tr s).playbackEndedFired = false := by rw [m1, hf]
      obtain ⟨ihA, ihB⟩ := ih (processFrame ops tr s) (by rw [hpf]; exact hfm)
        (by rw [hpf, m2]; exact ht)
      rw [hsp, hqc, hq]
      constructor
      · intro hnf
        obtain ⟨c1, c2, c3⟩ := ihA hnf
        refine ⟨by rw [c1, hpf, m3], ?_, c3⟩
        rw [c2, hpf, m2]
        simp
      · intro hyf
        obtain ⟨c1, c2⟩ := ihB hyf
        refine ⟨by rw [c1, hpf, m3], ?_⟩
        have hm2 : (processFrame ops tr s).releaseTailFrames = s.releaseTailFrames := by
          rw [hpf, m2]
        rw [hm2] at c2
        simpa using c2
    | true =>
      rcases le_or_lt (frameMid ops tr s).releaseTailFrames 0 with hle | hlt
      · have hpf : processFrame ops tr s = { frameMid ops tr s with playbackEndedFired := true, outEvents := (frameMid ops tr s).outEvents ++ [EventKind.playbackEnded] } := by
          unfold processFrame; rw [frameEnd_fire ops _ hq hle]
        have htz : s.releaseTailFrames = 0 := by
          rw [m2] at hle; omega
        obtain ⟨p1, p2, p3⟩ := pe_fired ops tr k (processFrame ops tr s) (by rw [hpf])
        rw [hsp, hqc, hq]
        constructor
        · intro hnf
          rw [p1] at hnf
          exact absurd hnf (by simp)
        · intro _
          refine ⟨?_, ?_⟩
          · rw [p2, hpf]
            show countPE ((frameMid ops tr s).outEvents ++ [EventKind.playbackEnded]) = countPE s.outEvents + 1
            rw [countPE_append, m3]
            rfl
          · rw [p3, htz]
            simp
      · have hpf : processFrame ops tr s = { frameMid ops tr s with releaseTailFrames := (frameMid ops tr s).releaseTailFrames - 1 } := by
          unfold processFrame; rw [frameEnd_dec ops _ hq hlt]
        have hf2 : (processFrame ops tr s).playbackEndedFired = false := by
          rw [hpf]
          show (frameMid ops tr s).playbackEndedFired = false
          rw [m1, hf]
        have ht2 : 0 ≤ (processFrame ops tr s).releaseTailFrames := by
          rw [hpf]
          show 0 ≤ (frameMid ops tr s).releaseTailFrames - 1
          omega
        have hout2 : countPE (processFrame ops tr s).outEvents = countPE s.outEvents := by
          rw [hpf]
          show countPE (frameMid ops tr s).outEvents = countPE s.outEvents
          rw [m3]
        have htail2 : (processFrame ops tr s).releaseTailFrames = s.releaseTailFrames - 1 := by
          rw [hpf]
          show (frameMid ops tr s).releaseTailFrames - 1 = s.releaseTailFrames - 1
          rw [m2]
        obtain ⟨ihA, ihB⟩ := ih (processFrame ops tr s) hf2 ht2
        rw [hsp, hqc, hq]
        constructor
        · intro hnf
          obtain ⟨c1, c2, c3⟩ := ihA hnf
          refine ⟨by rw [c1, hout2], ?_, c3⟩
          rw [c2, htail2, show (if (true : Bool) = true then (1 : Nat) else 0) = 1 from rfl]
          simp only [Int.ofNat_eq_natCast, Nat.cast_add, Nat.cast_one]
          ring
        · intro hyf
          obtain ⟨c1, c2⟩ := ihB hyf
          refine ⟨by rw [c1, hout2], ?_⟩
          rw [htail2] at c2
          rw [show (if (true : Bool) = true then (1 : Nat) else 0) = 1 from rfl]
          simp only [Int.ofNat_eq_natCast, Nat.cast_add, Nat.cast_one] at c2 ⊢
          omega

-- C8_HELPERS_MARKER

/- ===== the claims ===== -/

/-- C1 (amended): within one dispatched tick the engine first receives the
calls of the event-application phase — the NoteOns of notes effective at
that tick among them — and only afterwards the calls of the note-off
phase, which are all NoteOffs; a note-off queued for a tick T therefore
fires after, not before, the NoteOn of a note starting at T. -/
theorem claim_C1 (tr : Transc) (s : SeqState TraceEngine) (t : Int) :
    ∃ offCalls : List ECall,
      (dispatchTick traceOps tr s t).engine.calls =
        (dispatchEventsPhase traceOps tr s t).engine.calls ++ offCalls ∧
      offCalls.all (fun c => match c with | ECall.noteOff _ => true | _ => false) = true := by
  obtain ⟨l, hl, ha⟩ :=
    fireOffsGo_calls t (dispatchEventsPhase traceOps tr s t).noteOffs
      (dispatchEventsPhase traceOps tr s t).engine
  refine ⟨l, ?_, ha⟩
  unfold dispatchTick
  rw [exhaustPhase_engine]
  unfold fireOffsPhase
  rcases hgo : fireOffsGo traceOps (dispatchEventsPhase traceOps tr s t).engine
      (dispatchEventsPhase traceOps tr s t).noteOffs t with ⟨e2, offs2⟩
  rw [hgo] at hl
  exact hl

/-- C1 counterexample: playing "q8 c c", after the 480 ticks before tick
480 the state still holds an unfired note-off due at tick 480, yet the
dispatch of tick 480 issues the second note's NoteOn to the engine before
that NoteOff — the queued note-off does not precede the same-tick NoteOn. -/
theorem claim_C1_counterexample :
    runTicks traceOps truncOracle qccS0 0 480 = qccS1 ∧
    qccS1.noteOffs = [{ tick := 480, voice := 0, fired := false }] ∧
    (dispatchTick traceOps truncOracle qccS1 480).engine.calls =
      qccS1.engine.calls ++
        [ECall.setNoteOnPhase 0, ECall.setPortamento 60 0,
         ECall.setPitchLFO (fqOfInt 0) (fqOfInt 0) 0,
         ECall.setAmpLFO (fqOfInt 0) (fqOfInt 0) 0,
         ECall.setFilterLFO (fqOfInt 0) (fqOfInt 0) 0,
         ECall.noteOn 60 126 0 2147483648, ECall.noteOff 0] := by
  refine ⟨qccRun, by decide, by decide⟩

/-- C2: sampling a table at index idx reads table[idx] below the length;
past the end it wraps from a non-negative loop start; but with loop start
−1 it does not hold the last value — sampleTable resets the loop start to
0 and wraps over the whole table. -/
theorem claim_C2 (values : List Int) (loopStart idx : Int) (hne : values ≠ []) :
    (idx < Int.ofNat values.length →
      tableIndexValue { values := values, loopStart := loopStart } idx = values.getD idx.toNat 0) ∧
    (Int.ofNat values.length ≤ idx → 0 ≤ loopStart → loopStart < Int.ofNat values.length →
      tableIndexValue { values := values, loopStart := loopStart } idx =
        values.getD (loopStart + gmod (idx - loopStart) (Int.ofNat values.length - loopStart)).toNat 0) ∧
    (Int.ofNat values.length ≤ idx → loopStart = -1 →
      tableIndexValue { values := values, loopStart := loopStart } idx =
        values.getD (gmod idx (Int.ofNat values.length)).toNat 0) := by
  refine ⟨?_, ?_, ?_⟩
  · intro h
    unfold tableIndexValue
    dsimp only
    rw [if_pos h]
  · intro h h0 hlt
    unfold tableIndexValue
    dsimp only
    rw [if_neg (by omega), if_neg (by omega), if_neg (by omega)]
  · intro h hls
    subst hls
    unfold tableIndexValue
    dsimp only
    rw [if_neg (by omega), if_pos (by omega : (-1 : Int) < 0)]
    have hlen : 0 < values.length := List.length_pos.mpr hne
    rw [if_neg (by simp only [Int.ofNat_eq_natCast]; omega)]
    norm_num

/-- C2 witness: the two-entry table [10, 20] with loop start −1 sampled at
index 2. -/
theorem claim_C2_witness :
    ([10, 20] : List Int) ≠ [] ∧
    (Int.ofNat ([10, 20] : List Int).length ≤ 2 → (-1 : Int) = -1 →
      tableIndexValue { values := [10, 20], loopStart := -1 } 2 =
        ([10, 20] : List Int).getD (gmod 2 (Int.ofNat ([10, 20] : List Int).length)).toNat 0) :=
  ⟨by decide, (claim_C2 [10, 20] (-1) 2 (by decide)).2.2⟩

/-- C2 counterexample: the table [10, 20] with loop start −1 sampled past
the end yields 10 (wrap from 0), not the held last value 20. -/
theorem claim_C2_counterexample :
    tableIndexValue { values := [10, 20], loopStart := -1 } 2 = 10 ∧
    tableIndexValue { values := [10, 20], loopStart := -1 } 2 ≠ 20 := by
  constructor <;> decide

/-- C3 (amended): under the default configuration (octave polarize −1) the
`<` command lowers the octave cursor by N and `>` raises it by N, clamped
to [0, 9] — the polarity is the reverse of the claim's. -/
theorem claim_C3 (opts : parserOptions) (tr : Transc) (s : Str) (ps : trackLoopState) :
    (at' s ps.i = '<' → parseTrackStep DefaultParserConfig opts tr s ps = .ok { ps with st := { ps.st with octave := mml.clampInt (ps.st.octave - (parseNumberDefault s (ps.i + 1) 1).1) 0 9 }, i := (parseNumberDefault s (ps.i + 1) 1).2 }) ∧
    (at' s ps.i = '>' → parseTrackStep DefaultParserConfig opts tr s ps = .ok { ps with st := { ps.st with octave := mml.clampInt (ps.st.octave + (parseNumberDefault s (ps.i + 1) 1).1) 0 9 }, i := (parseNumberDefault s (ps.i + 1) 1).2 }) := by
  constructor
  · intro h
    rcases hpd : parseNumberDefault s (ps.i + 1) 1 with ⟨v, nx⟩
    have harith : ps.st.octave - v = ps.st.octave + v * DefaultParserConfig.octavePolarize := by
      have hpol : DefaultParserConfig.octavePolarize = -1 := rfl
      rw [hpol]; ring
    dsimp only
    simp only [harith]
    simp only [parseTrackStep, h, hpd]
    rfl
  · intro h
    rcases hpd : parseNumberDefault s (ps.i + 1) 1 with ⟨v, nx⟩
    have harith : ps.st.octave + v = ps.st.octave - v * DefaultParserConfig.octavePolarize := by
      have hpol : DefaultParserConfig.octavePolarize = -1 := rfl
      rw [hpol]; ring
    dsimp only
    simp only [harith]
    simp only [parseTrackStep, h, hpd]
    rfl

/-- C3 counterexample: "o5<c" parses to note 48 (octave lowered to 4), not
72 (octave raised to 6) as the claim's polarity would give. -/
theorem claim_C3_counterexample :
    (((mmlParse DefaultParserConfig truncOracle ("o5<c".toList)).getD {}).tracks.getD 0 {}).events.filterMap
      (fun e => if e.type = .note then some e.note else none) = [48] ∧ (48 : Int) ≠ 72 := by
  constructor <;> decide

/-- C4: with the default quant state (value 6 of max 8 — which yields gate
percent 75, not 3/4 rounded up) a positive length of D ticks gets on-time
max 1 (D * 75 / 100) with truncating division — 3/4 of D rounded DOWN (and
at least 1), not rounded up. -/
theorem claim_C4 (D : Int) (hD : 0 < D) :
    (newState DefaultParserConfig { quantMax := parseQuantMax [] } []).quantValue = 6 ∧
    (newState DefaultParserConfig { quantMax := parseQuantMax [] } []).quantMax = 8 ∧
    (newState DefaultParserConfig { quantMax := parseQuantMax [] } []).gatePercent = 75 ∧
    parseGateDuration D 75 = max 1 (Int.tdiv (D * 75) 100) := by
  refine ⟨by decide, by decide, by decide, ?_⟩
  unfold parseGateDuration gdiv
  rw [if_neg (by omega : ¬ (75 : Int) ≤ 0)]
  have hnn : 0 ≤ Int.tdiv (D * 75) 100 := Int.tdiv_nonneg (by omega) (by omega)
  dsimp only
  split_ifs <;> omega

/-- C4 witness: a 960-tick note. -/
theorem claim_C4_witness :
    (0 : Int) < 960 ∧ parseGateDuration 960 75 = max 1 (Int.tdiv (960 * 75) 100) :=
  ⟨by decide, (claim_C4 960 (by decide)).2.2.2⟩

/-- C4 counterexample: "l960c" (a 1-tick note under the default 480-tick
whole): 1 * 75 / 100 rounds down to 0, so the emitted on-time is the
minimum 1, where rounding up would give ⌈3/4⌉ = 1 — and for 2 ticks the
on-time is 1, not ⌈2 * 3/4⌉ = 2. -/
theorem claim_C4_counterexample :
    parseGateDuration 2 75 = 1 ∧ (1 : Int) ≠ 2 ∧
    ((((mmlParse DefaultParserConfig truncOracle ("l960c".toList)).getD {}).tracks.getD 0 {}).events.filterMap
      (fun e => if e.type = .note then some e.duration else none)) = [1] := by
  refine ⟨by decide, by decide, by decide⟩

/-- C5 (amended): most out-of-range numeric arguments are clamped (pan
among them, into [−64, 64]), but `o N` with N outside the configured
octave range is a parse error, not a clamp. -/
theorem claim_C5 (opts : parserOptions) (tr : Transc) (s : Str) (ps : trackLoopState) :
    (at' s ps.i = 'o' →
      ((parseNumberDefault s (ps.i + 1) ps.st.octave).1 < 0 ∨ 9 < (parseNumberDefault s (ps.i + 1) ps.st.octave).1 →
        parseTrackStep DefaultParserConfig opts tr s ps = .err ['o','c','t','a','v','e']) ∧
      (0 ≤ (parseNumberDefault s (ps.i + 1) ps.st.octave).1 → (parseNumberDefault s (ps.i + 1) ps.st.octave).1 ≤ 9 →
        parseTrackStep DefaultParserConfig opts tr s ps = .ok { ps with st := { ps.st with octave := (parseNumberDefault s (ps.i + 1) ps.st.octave).1 }, i := (parseNumberDefault s (ps.i + 1) ps.st.octave).2 })) ∧
    (at' s ps.i = 'p' → ¬ (ps.i + 1 < s.length ∧ lower (at' s (ps.i + 1)) = 'o') →
      parseTrackStep DefaultParserConfig opts tr s ps = .ok { ps with st := { ps.st with pan := normalizePanValue (parseSignedNumberDefault s (ps.i + 1) ps.st.pan).1 }, events := ps.events ++ [{ type := .pan, tick := ps.st.tick, value := normalizePanValue (parseSignedNumberDefault s (ps.i + 1) ps.st.pan).1 }], i := (parseSignedNumberDefault s (ps.i + 1) ps.st.pan).2 } ∧
      -64 ≤ normalizePanValue (parseSignedNumberDefault s (ps.i + 1) ps.st.pan).1 ∧
      normalizePanValue (parseSignedNumberDefault s (ps.i + 1) ps.st.pan).1 ≤ 64) := by
  constructor
  · intro h
    rcases hpd : parseNumberDefault s (ps.i + 1) ps.st.octave with ⟨v, nx⟩
    constructor
    · intro hrange
      simp only [parseTrackStep, h, hpd]
      show (if v < DefaultParserConfig.minOctave ∨ v > DefaultParserConfig.maxOctave then (res.err ['o','c','t','a','v','e'] : res trackLoopState) else .ok { ps with st := { ps.st with octave := v }, i := nx }) = _
      have h0 : DefaultParserConfig.minOctave = 0 := rfl
      have h9 : DefaultParserConfig.maxOctave = 9 := rfl
      rw [h0, h9, if_pos (by dsimp only at hrange; omega)]
    · intro hlo hhi
      simp only [parseTrackStep, h, hpd]
      show (if v < DefaultParserConfig.minOctave ∨ v > DefaultParserConfig.maxOctave then (res.err ['o','c','t','a','v','e'] : res trackLoopState) else .ok { ps with st := { ps.st with octave := v }, i := nx }) = _
      have h0 : DefaultParserConfig.minOctave = 0 := rfl
      have h9 : DefaultParserConfig.maxOctave = 9 := rfl
      dsimp only at hlo hhi
      rw [h0, h9, if_neg (by omega)]
  · intro h hno
    rcases hpd : parseSignedNumberDefault s (ps.i + 1) ps.st.pan with ⟨v, nx⟩
    refine ⟨?_, ?_, ?_⟩
    · simp only [parseTrackStep, h, hpd]
      rw [if_neg hno]
      rfl
    · unfold normalizePanValue; dsimp only; split_ifs <;> omega
    · unfold normalizePanValue; dsimp only; split_ifs <;> omega

/-- C5 counterexample: "o12c" does not parse — the out-of-range octave
argument is rejected with an error, not clamped. -/
theorem claim_C5_counterexample :
    (mmlParse DefaultParserConfig truncOracle ("o12c".toList)).isOk = false := by
  decide

/-- C6: a Tempo event of a looping track (applied with cursor loop state
cycle > 0, loop index ≥ 0, event tick ≥ loop tick) leaves the tick rate —
indeed the whole state, when no module hook is installed — unchanged,
while on cycle 0 it sets ticksPerSamp to value * resolution / (240 *
sampleRate). -/
theorem claim_C6 {E : Type} (ops : EngineOps E) (tr : Transc) (s : SeqState E) (trkIdx : Nat)
    (tc : trackCursor) (ev : mml.Event) (eventTick : Int) (hev : ev.type = .tempo) :
    (tc.loopCycle > 0 → tc.loopIndex ≥ 0 → ev.tick ≥ tc.loopTick →
      (applyEvent ops tr s trkIdx tc ev eventTick).ticksPerSamp = s.ticksPerSamp ∧
      (ops.setCurrentModule = none → applyEvent ops tr s trkIdx tc ev eventTick = s)) ∧
    (tc.loopCycle = 0 →
      (applyEvent ops tr s trkIdx tc ev eventTick).ticksPerSamp = fqDiv (fqMul (fqOfInt ev.value) (fqOfInt s.score.resolution)) (fqMul (fqOfInt 240) (fqOfInt s.sampleRate))) := by
  rcases hm : ops.setCurrentModule with _ | f
  · constructor
    · intro h1 h2 h3
      constructor
      · unfold applyEvent
        rw [hev, hm]
        dsimp only
        rw [if_pos rfl, if_pos ⟨h1, h2, h3⟩]
      · intro _
        unfold applyEvent
        rw [hev, hm]
        dsimp only
        rw [if_pos rfl, if_pos ⟨h1, h2, h3⟩]
    · intro h0
      unfold applyEvent
      rw [hev, hm]
      dsimp only
      rw [if_pos rfl, if_neg (by rw [h0]; rintro ⟨hc, -⟩; exact absurd hc (lt_irrefl 0))]
  · constructor
    · intro h1 h2 h3
      constructor
      · unfold applyEvent
        rw [hev, hm]
        dsimp only
        rw [if_pos rfl, if_pos ⟨h1, h2, h3⟩]
      · intro hnone
        exact absurd hnone (Option.some_ne_none f)
    · intro h0
      unfold applyEvent
      rw [hev, hm]
      dsimp only
      rw [if_pos rfl, if_neg (by rw [h0]; rintro ⟨hc, -⟩; exact absurd hc (lt_irrefl 0))]

/-- C6 witness: a Tempo event applied to the fresh "q8 c c" state with a
cursor in loop cycle 1. -/
theorem claim_C6_witness :
    tempoEv120.type = mml.EventType.tempo ∧
    (({ loopCycle := 1 } : trackCursor).loopCycle > 0 →
     ({ loopCycle := 1 } : trackCursor).loopIndex ≥ 0 →
     tempoEv120.tick ≥ ({ loopCycle := 1 } : trackCursor).loopTick →
      (applyEvent traceOps truncOracle qccS0 0 { loopCycle := 1 } tempoEv120 0).ticksPerSamp = qccS0.ticksPerSamp ∧
      (traceOps.setCurrentModule = none → applyEvent traceOps truncOracle qccS0 0 { loopCycle := 1 } tempoEv120 0 = qccS0)) :=
  ⟨rfl, (claim_C6 traceOps truncOracle qccS0 0 { loopCycle := 1 } tempoEv120 0 rfl).1⟩

/-- C7: preprocessing "#A=cde;#B=Afg; B; #A=gfe; B;" expands B to cdefg
twice in (default) static mode, and to cdefg then gfefg in dynamic mode. -/
theorem claim_C7 :
    (preprocessInput ("#A=cde;#B=Afg; B; #A=gfe; B;".toList)).text = " cdefg;  cdefg;".toList ∧
    (preprocessInput ("#MACRO{dynamic};#A=cde;#B=Afg; B; #A=gfe; B;".toList)).text = " cdefg;  gfefg;".toList := by
  constructor <;> decide

/-- C9: an applied pan event whose track runtime has mask bit 1 set leaves
the sequencer state entirely unchanged (no module hook installed), and the
481-tick run of "@mask2 p8 c p0 c" issues both NoteOns with pan 0, the
runtime pan still 0. -/
theorem claim_C9 :
    (∀ (E : Type) (ops : EngineOps E) (tr : Transc) (s : SeqState E) (trackIndex : Nat)
       (tc : trackCursor) (ev : mml.Event) (eventTick : Int),
       ops.setCurrentModule = none →
       ev.type = mml.EventType.pan →
       gand (s.trackRuntime.getD trackIndex freshRuntime).mask 2 ≠ 0 →
       applyEvent ops tr s trackIndex tc ev eventTick = s) ∧
    (runTicks traceOps truncOracle maskS0 0 481).engine.calls.filterMap
      (fun c => match c with | ECall.noteOn _ _ p _ => some p | _ => none) = [0, 0] ∧
    ((runTicks traceOps truncOracle maskS0 0 481).trackRuntime.getD 0 freshRuntime).pan = 0 := by
  refine ⟨?_, ?_, ?_⟩
  · intro E ops tr s trackIndex tc ev eventTick hnone hev hmask
    unfold applyEvent
    rw [hev, hnone]
    dsimp only
    rw [if_neg (by decide), if_neg (by decide), if_neg (by decide), if_neg (by decide),
        if_pos rfl, if_pos hmask]
  · rw [maskRun]; decide
  · rw [maskRun]; decide

/-- C10: the parser's pan normalization maps an argument v of the coarse
0..8 scale to (v − 4) * 16 and clamps any other argument into [−64, 64]. -/
theorem claim_C10 (v : Int) :
    (0 ≤ v ∧ v ≤ 8 → normalizePanValue v = (v - 4) * 16) ∧
    (¬ (0 ≤ v ∧ v ≤ 8) → normalizePanValue v = clampInt v (-64) 64) := by
  unfold normalizePanValue clampInt
  constructor
  · intro h
    simp [h]
  · intro h
    rw [if_neg h]
    split_ifs <;> omega

/-- C10 witness: p8 maps to +64. -/
theorem claim_C10_witness : (0 ≤ (8:Int) ∧ (8:Int) ≤ 8 → normalizePanValue 8 = (8 - 4) * 16) ∧
    (¬ (0 ≤ (8:Int) ∧ (8:Int) ≤ 8) → normalizePanValue 8 = clampInt 8 (-64) 64) := claim_C10 8

/-- C8: with whole-score looping disabled (and in general), starting from a
state that has not yet fired PlaybackEnded and has a non-negative release
tail, a Process run emits PlaybackEnded exactly once if its fired flag ends
set and never otherwise; it fires only after strictly more than
release_tail_frames frames have reached the frame-end block with the score
exhausted, note-offs all gone and zero active voices; while unfired, the
countdown equals the initial tail minus the qualifying frames and stays
non-negative; and NewWithOptions defaults the tail to sampleRate/2. -/
theorem claim_C8 {E : Type} (ops : EngineOps E) (tr : Transc) (n : Nat) (s : SeqState E)
    (hl : s.loopWholeScore = false)
    (hf : s.playbackEndedFired = false)
    (hc : countPE s.outEvents = 0)
    (ht : 0 ≤ s.releaseTailFrames) :
    countPE (seqProcess ops tr n s).outEvents =
      (if (seqProcess ops tr n s).playbackEndedFired then 1 else 0) ∧
    ((seqProcess ops tr n s).playbackEndedFired = true →
      s.releaseTailFrames < Int.ofNat (qualCount ops tr n s)) ∧
    ((seqProcess ops tr n s).playbackEndedFired = false →
      (seqProcess ops tr n s).releaseTailFrames =
        s.releaseTailFrames - Int.ofNat (qualCount ops tr n s) ∧
      0 ≤ (seqProcess ops tr n s).releaseTailFrames) ∧
    (∀ (sc : mml.Score) (e : E) (sr : Int),
      (NewWithOptions sc e sr {}).releaseTailFrames = gdiv sr 2) := by
  obtain ⟨hA, hB⟩ := pe_invariant ops tr n s hf ht
  refine ⟨?_, fun hyf => (hB hyf).2, fun hnf => ⟨(hA hnf).2.1, (hA hnf).2.2⟩, ?_⟩
  · cases hfb : (seqProcess ops tr n s).playbackEndedFired with
    | false =>
      obtain ⟨c1, _, _⟩ := hA hfb
      rw [c1, hc]
      simp
    | true =>
      obtain ⟨c1, _⟩ := hB hfb
      rw [c1, hc]
      simp
  · intro sc e sr
    simp [NewWithOptions]

/-- C8 witness: a two-sample-rate exhausted state with a one-frame tail,
run for three frames. -/
theorem claim_C8_witness :
    W8.loopWholeScore = false ∧ (0 : Int) ≤ W8.releaseTailFrames ∧
    countPE (seqProcess traceOps truncOracle 3 W8).outEvents =
      (if (seqProcess traceOps truncOracle 3 W8).playbackEndedFired then 1 else 0) :=
  ⟨rfl, by decide, (claim_C8 traceOps truncOracle 3 W8 rfl rfl rfl (by decide)).1⟩
